import Mathlib

/-!
Verification development for the tamil-blasters crawler/addon repository.

The development shallowly embeds the parts of the source that the
specification talks about:

* `src/parser/titleParser.js` (the "ultimate master regex list" revision):
  the magnet/title parsing engine, including the six ordered parsing
  patterns, the btih info-hash extraction and the `&dn=` display-name
  extraction.
* `src/database/dataManager.js` (the tmdb-keyed revision): `addStream`,
  `findOrCreateShow`, `updateCatalog`, `findCachedTmdbId`,
  `logUnmatchedMagnet`.
* `src/utils/tmdb.js` / `src/utils/omdb.js`: `searchTv`, `getTvDetails`,
  `searchOmdb`, with the HTTP layer abstracted into an environment of
  responses.
* `src/workers/threadProcessor.js` (the metadata-waterfall revision):
  `processThread`, producing a trace of externally visible effects.
* `src/crawler/workerPool.js` (the EventEmitter revision with the
  `drained` notification): an executable event-delivery semantics.

JavaScript regexes are embedded through a small backtracking engine whose
results are produced in the exact priority order a JS engine uses
(leftmost position first, greedy quantifiers, alternatives left to right),
so `jsSearch pat s` is `s.match(pat)` restricted to the capture groups.
-/

/-! ## JavaScript value helpers -/

/-- Truthiness of a JS `number | null | undefined` value: `null`,
`undefined`, `0` and `NaN` are falsy (we model `null`/`undefined`/`NaN`
as `none`). -/
def jsTruthyNat : Option Nat → Bool
  | none => false
  | some n => n != 0

/-- Truthiness of a JS `string | null | undefined` value: `null`,
`undefined` and the empty string are falsy. -/
def jsTruthyStr : Option String → Bool
  | none => false
  | some s => s != ""

/-- JS `a || b` on nullable numbers. -/
def jsOrNat (a b : Option Nat) : Option Nat :=
  if jsTruthyNat a then a else b

/-- Numeric value of a list of decimal digit characters. -/
def digitsVal (l : List Char) : Nat :=
  l.foldl (fun acc c => acc * 10 + (c.toNat - 48)) 0

/-- JS `parseInt` restricted to the shapes that occur in the embedded
code: an all-digit capture yields its decimal value, a capture with no
leading digit (or an `undefined` capture from an unmatched group) yields
`NaN`, modelled as `none`. -/
def parseIntJS : Option (List Char) → Option Nat
  | none => none
  | some l =>
    let ds := l.takeWhile (·.isDigit)
    if ds.isEmpty then none else some (digitsVal ds)

/-- ASCII lower-casing, as JS `toLowerCase` acts on ASCII letters. -/
def jsToLower (c : Char) : Char :=
  if 'A' ≤ c ∧ c ≤ 'Z' then Char.ofNat (c.toNat + 32) else c

/-! ## A backtracking regex engine with JS semantics

Patterns are an AST; `mtch` returns the list of all ways the pattern can
match a prefix of the input, in backtracking priority order, so the head
of the list is the match a JS engine commits to. -/

/-- Capture environment: group index paired with the captured characters;
more recent captures shadow older ones. -/
abbrev Caps := List (Nat × List Char)

/-- Regex pattern AST.  `cls` is a one-character class, `rep` a greedy
bounded repetition of a character class (`hi = none` means unbounded),
`grp` a numbered capture group, `nla` a negative lookahead. -/
inductive RPat where
  | cls (p : Char → Bool)
  | seq (a b : RPat)
  | alt (a b : RPat)
  | opt (a : RPat)
  | rep (p : Char → Bool) (lo : Nat) (hi : Option Nat)
  | grp (i : Nat) (a : RPat)
  | nla (a : RPat)

/-- Length of the maximal run of characters satisfying `p` at the head. -/
def countRun (p : Char → Bool) (s : List Char) : Nat :=
  (s.takeWhile p).length

/-- All matches of `pat` against a prefix of `s`, each as (remaining
input, captures), in JS backtracking priority order. -/
def mtch : RPat → List Char → Caps → List (List Char × Caps)
  | .cls p, s, caps =>
    match s with
    | [] => []
    | c :: rest => if p c then [(rest, caps)] else []
  | .seq a b, s, caps => (mtch a s caps).flatMap (fun r => mtch b r.1 r.2)
  | .alt a b, s, caps => mtch a s caps ++ mtch b s caps
  | .opt a, s, caps => mtch a s caps ++ [(s, caps)]
  | .rep p lo hi, s, caps =>
    let m := min (hi.getD s.length) (countRun p s)
    if m < lo then []
    else (List.range (m + 1 - lo)).map (fun j => (s.drop (m - j), caps))
  | .grp i a, s, caps =>
    (mtch a s caps).map (fun r => (r.1, (i, s.take (s.length - r.1.length)) :: r.2))
  | .nla a, s, caps => if (mtch a s caps).isEmpty then [(s, caps)] else []

/-- `s.match(pat)` scanning start positions left to right: the capture
set of the first successful match, if any. -/
def jsSearchFrom (pat : RPat) : List Char → Option Caps
  | [] => ((mtch pat [] []).head?).map Prod.snd
  | c :: rest =>
    match (mtch pat (c :: rest) []).head? with
    | some r => some r.2
    | none => jsSearchFrom pat rest

/-- JS `string.match(regex)` (no global flag): `none` is a failed match,
`some caps` a successful one with its capture groups. -/
def jsSearch (pat : RPat) (s : List Char) : Option Caps :=
  jsSearchFrom pat s

/-- `match[i]`: contents of capture group `i`, `none` when the group did
not participate in the match (JS `undefined`). -/
def capStr (caps : Caps) (i : Nat) : Option (List Char) :=
  (caps.find? (fun x => x.1 == i)).map Prod.snd

/-- Sequence a list of patterns. -/
def seqList : List RPat → RPat
  | [] => .nla (.cls (fun _ => true))
  | [p] => p
  | p :: rest => .seq p (seqList rest)

/-! ## Character classes used by the source regexes -/

def dCls (c : Char) : Bool := c.isDigit

/-- JS `\s` restricted to the ASCII whitespace characters. -/
def spaceCls (c : Char) : Bool :=
  c == ' ' || c == '\t' || c == '\n' || c == '\r' || c == '\x0b' || c == '\x0c'

/-- Case-insensitive literal letter (the `/i` flag on the source regexes). -/
def ciCls (lower upper : Char) (c : Char) : Bool := c == lower || c == upper

def sCls (c : Char) : Bool := ciCls 's' 'S' c
def eCls (c : Char) : Bool := ciCls 'e' 'E' c
def pCls (c : Char) : Bool := ciCls 'p' 'P' c
def lparCls (c : Char) : Bool := c == '('
def rparCls (c : Char) : Bool := c == ')'

/-- The `[-‑]` class: ASCII hyphen or U+2011 non-breaking hyphen. -/
def dashCls (c : Char) : Bool := c == '-' || c == '‑'

def hexCls (c : Char) : Bool :=
  c.isDigit || ('a' ≤ c && c ≤ 'f') || ('A' ≤ c && c ≤ 'F')

def notAmpCls (c : Char) : Bool := c != '&'

/-- Case-insensitive literal word as a pattern. -/
def ciWord (w : List (Char × Char)) : RPat :=
  seqList (w.map (fun cc => .cls (ciCls cc.1 cc.2)))

/-- Exact (case-sensitive) literal word as a pattern. -/
def litWord (w : List Char) : RPat :=
  seqList (w.map (fun c => .cls (fun x => x == c)))

/-! ## `src/parser/titleParser.js` — the "ultimate master regex list"

Each entry embeds one regex of `PARSING_PATTERNS` (part_019 lines 13-44)
together with its type tag. -/

inductive PatType where
  | episodePack
  | singleEpisode
  | seasonPack
deriving DecidableEq, Repr

/-- `/S(\d{1,2})\s?EP?\s?\((\d{1,3})[-‑](\d{1,3})\)/i` — packs like
`S01EP(01-13)`, `S01 EP (01-15)`, `S01(E01-26)`. -/
def pat1 : RPat :=
  seqList [.cls sCls, .grp 1 (.rep dCls 1 (some 2)), .opt (.cls spaceCls),
    .cls eCls, .opt (.cls pCls), .opt (.cls spaceCls), .cls lparCls,
    .grp 2 (.rep dCls 1 (some 3)), .cls dashCls, .grp 3 (.rep dCls 1 (some 3)),
    .cls rparCls]

/-- `/S(\d{1,2})\s?E(\d{1,3})[-‑]E?(\d{1,3})/i` — packs like `S02EP01-07`
or `S01E01-E16`. -/
def pat2 : RPat :=
  seqList [.cls sCls, .grp 1 (.rep dCls 1 (some 2)), .opt (.cls spaceCls),
    .cls eCls, .grp 2 (.rep dCls 1 (some 3)), .cls dashCls, .opt (.cls eCls),
    .grp 3 (.rep dCls 1 (some 3))]

/-- `/S(\d{1,2})EP(\d{1,3})[-‑](\d{1,3})/i` — packs like `S01EP01-04`. -/
def pat3 : RPat :=
  seqList [.cls sCls, .grp 1 (.rep dCls 1 (some 2)), .cls eCls, .cls pCls,
    .grp 2 (.rep dCls 1 (some 3)), .cls dashCls, .grp 3 (.rep dCls 1 (some 3))]

/-- `/S(\d{1,2})\s?\((\d{1,3})[-‑](\d{1,3})\)/i` — packs like `S01 (01-24)`. -/
def pat4 : RPat :=
  seqList [.cls sCls, .grp 1 (.rep dCls 1 (some 2)), .opt (.cls spaceCls),
    .cls lparCls, .grp 2 (.rep dCls 1 (some 3)), .cls dashCls,
    .grp 3 (.rep dCls 1 (some 3)), .cls rparCls]

/-- `/S(\d{1,2})\s?EP?\(?(\d{1,3})\)?(?!-)/i` — single episodes like
`S01EP16`, `S02 EP(06)`. -/
def pat5 : RPat :=
  seqList [.cls sCls, .grp 1 (.rep dCls 1 (some 2)), .opt (.cls spaceCls),
    .cls eCls, .opt (.cls pCls), .opt (.cls lparCls),
    .grp 2 (.rep dCls 1 (some 3)), .opt (.cls rparCls),
    .nla (.cls (fun c => c == '-'))]

/-- `/(?:S|Season)\s*(\d{1,2})(?!\s?E|\s?\d)|(Complete)/i` — season-only
packs like `S1`, `S02`, or titles containing `Complete`. -/
def pat6 : RPat :=
  .alt
    (seqList [.alt (.cls sCls)
        (ciWord [('s', 'S'), ('e', 'E'), ('a', 'A'), ('s', 'S'), ('o', 'O'), ('n', 'N')]),
      .rep spaceCls 0 none, .grp 1 (.rep dCls 1 (some 2)),
      .nla (.alt (.seq (.opt (.cls spaceCls)) (.cls eCls))
        (.seq (.opt (.cls spaceCls)) (.cls dCls)))])
    (.grp 2 (ciWord [('c', 'C'), ('o', 'O'), ('m', 'M'), ('p', 'P'), ('l', 'L'),
      ('e', 'E'), ('t', 'T'), ('e', 'E')]))

/-- The ordered master pattern list (part_019 `PARSING_PATTERNS`). -/
def PARSING_PATTERNS : List (RPat × PatType) :=
  [(pat1, .episodePack), (pat2, .episodePack), (pat3, .episodePack),
   (pat4, .episodePack), (pat5, .singleEpisode), (pat6, .seasonPack)]

/-- The fields of a `parse-torrent-title` library result that the
embedded code consults.  The library is an external dependency, so its
behaviour is a parameter of every parsing function.  (`title`, `year`,
`languages` are not consulted by any claim and are omitted.) -/
structure PttResult where
  season : Option Nat
  episode : Option Nat
  resolution : Option String
deriving Repr, DecidableEq

/-- JS `a || b` on a nullable string against a string default. -/
def jsOrStr (a : Option String) (b : String) : String :=
  if jsTruthyStr a then a.getD b else b

/-- `Array.from({ length: endEp - startEp + 1 }, (_, i) => startEp + i)`:
the inclusive range, empty when the length underflows. -/
def episodeRange (a b : Nat) : List Nat :=
  (List.range (b + 1 - a)).map (fun i => a + i)

/-- One iteration body of the master-pattern loop (part_019 lines 62-76):
given the match of a pattern, update the `season`/`episodes` state. -/
def applyPat (ptt : PttResult) (ty : PatType) (caps : Caps)
    (season : Option Nat) (eps : List Nat) : Option Nat × List Nat :=
  match ty with
  | .seasonPack =>
    (jsOrNat (parseIntJS (capStr caps 1)) (jsOrNat ptt.season (some 1)), eps)
  | .singleEpisode =>
    let season' := parseIntJS (capStr caps 1)
    match parseIntJS (capStr caps 2) with
    | some e => (season', [e])
    | none => (season', eps)
  | .episodePack =>
    let season' := parseIntJS (capStr caps 1)
    match parseIntJS (capStr caps 2), parseIntJS (capStr caps 3) with
    | some a, some b => (season', episodeRange a b)
    | _, _ => (season', eps)

/-- The master-pattern loop: first definitive match wins
(`if (season && (episodes.length > 0 || pattern.type === 'SEASON_PACK')) break`). -/
def patLoop (ptt : PttResult) (title : List Char) :
    List (RPat × PatType) → Option Nat → List Nat → Option Nat × List Nat
  | [], season, eps => (season, eps)
  | (pat, ty) :: rest, season, eps =>
    match jsSearch pat title with
    | none => patLoop ptt title rest season eps
    | some caps =>
      let r := applyPat ptt ty caps season eps
      if jsTruthyNat r.1 && (decide (0 < r.2.length) || ty == PatType.seasonPack)
      then r
      else patLoop ptt title rest r.1 r.2

/-- Season/episode extraction of part_019 `parseTitle` (lines 56-88): the
master-pattern loop followed by the library fallback
(`if (!season && episodes.length === 0) ...`). -/
def seasonEpisodes (ptt : PttResult) (title : List Char) : Option Nat × List Nat :=
  let r := patLoop ptt title PARSING_PATTERNS none []
  if !jsTruthyNat r.1 && r.2.isEmpty then
    ((if jsTruthyNat ptt.season then ptt.season else r.1),
     (match ptt.episode with
      | some e => if e != 0 then [e] else []
      | none => []))
  else r

/-- Parsed magnet metadata (part_019 `parseTitle` result).  The fields no
claim consults (`title`, `year`, `languages`, `size`) are omitted. -/
structure ParsedTitle where
  infoHash : List Char
  name : List Char
  season : Option Nat
  episodes : List Nat
  resolution : String
deriving Repr, DecidableEq

/-- `/btih:([a-fA-F0-9]{40})/` (case-sensitive: no `/i` flag). -/
def BTIH_REGEX : RPat :=
  .seq (litWord ['b', 't', 'i', 'h', ':']) (.grp 1 (.rep hexCls 40 (some 40)))

/-- `/&dn=([^&]+)/`. -/
def DN_REGEX : RPat :=
  .seq (litWord ['&', 'd', 'n', '=']) (.grp 1 (.rep notAmpCls 1 none))

/-- Value of a hexadecimal digit character. -/
def hexDigitVal (c : Char) : Nat :=
  if c.isDigit then c.toNat - 48
  else if 'a' ≤ c ∧ c ≤ 'f' then c.toNat - 87
  else c.toNat - 55

/-- JS `decodeURIComponent`, byte-level: each `%XX` escape becomes the
character with that code, a malformed escape throws (`none`).  (The
multi-byte UTF-8 validation of the real builtin is not modelled; no claim
depends on it.) -/
def decodeURIComponentJS : List Char → Option (List Char)
  | [] => some []
  | '%' :: a :: b :: rest =>
    if hexCls a && hexCls b then
      (decodeURIComponentJS rest).map
        (fun r => Char.ofNat (16 * (hexDigitVal a) + hexDigitVal b) :: r)
    else none
  | '%' :: _ => none
  | c :: rest => (decodeURIComponentJS rest).map (c :: ·)

/-- Whitespace squashing for `replace(/\s+/g, ' ')`. -/
def squashWs (l : List Char) : List Char :=
  squashWsGo l false
where
  squashWsGo : List Char → Bool → List Char
    | [], _ => []
    | c :: rest, inWs =>
      if spaceCls c then
        if inWs then squashWsGo rest true else ' ' :: squashWsGo rest true
      else c :: squashWsGo rest false

/-- JS `trim`. -/
def trimWs (l : List Char) : List Char :=
  ((l.dropWhile spaceCls).reverse.dropWhile spaceCls).reverse

/-- part_019 `parseTitle` (lines 46-99).  A thrown `URIError` from
`decodeURIComponent` is `.error ()`; the source's `return null` is
`.ok none`. -/
def parseTitle (ptt : List Char → PttResult) (magnetUri : List Char) :
    Except Unit (Option ParsedTitle) :=
  match jsSearch BTIH_REGEX magnetUri with
  | none => .ok none
  | some hcaps =>
    let infoHash := ((capStr hcaps 1).getD []).map jsToLower
    match jsSearch DN_REGEX magnetUri with
    | none => .ok none
    | some dcaps =>
      match decodeURIComponentJS ((capStr dcaps 1).getD []) with
      | none => .error ()
      | some decoded =>
        let titleToParse := decoded.map (fun c => if c == '+' then ' ' else c)
        if titleToParse.isEmpty then .ok none
        else
          let p := ptt titleToParse
          let se := seasonEpisodes p titleToParse
          .ok (some { infoHash := infoHash, name := trimWs (squashWs titleToParse),
                      season := se.1, episodes := se.2,
                      resolution := jsOrStr p.resolution "N/A" })

/-- Lower-case hexadecimal digit predicate (used to state C10). -/
def isLowerHex (c : Char) : Bool :=
  c.isDigit || ('a' ≤ c && c ≤ 'f')

/-- A pattern containing no capture group: matching leaves the capture
environment untouched. -/
def NoGrp : RPat → Prop
  | .cls _ => True
  | .seq a b => NoGrp a ∧ NoGrp b
  | .alt a b => NoGrp a ∧ NoGrp b
  | .opt a => NoGrp a
  | .rep _ _ _ => True
  | .grp _ _ => False
  | .nla _ => True

/-- A pattern that cannot match without consuming at least one character
satisfying `q`. -/
def MustSee (q : Char → Bool) : RPat → Prop
  | .cls p => ∀ c, p c = true → q c = true
  | .seq a b => MustSee q a ∨ MustSee q b
  | .alt a b => MustSee q a ∧ MustSee q b
  | .opt _ => False
  | .rep p lo _ => 1 ≤ lo ∧ ∀ c, p c = true → q c = true
  | .grp _ a => MustSee q a
  | .nla _ => False


/-! ## `src/database/dataManager.js`, `src/utils/tmdb.js`,
`src/utils/omdb.js`, `src/workers/threadProcessor.js`

The stateful code is embedded as functions from an environment of
external responses to a value plus a trace of externally visible effects
(`Ev`).  The environment fixes the outcome of every HTTP request and
key-value lookup, which is what the event-loop code observes. -/

/-- Result of tmdb.js `getTvDetails` (lines 41-57): the id the caller
asked for (`return { tmdbId, imdbId }` echoes the parameter) paired with
the IMDb id found in `external_ids`. -/
structure TvDetails where
  tmdbId : String
  imdbId : String
deriving Repr, DecidableEq

/-- Result of omdb.js `searchOmdb` after its
`data.Response === 'True' && data.imdbID` check. -/
structure OmdbResult where
  imdbId : String
  title : String
  year : Option String
  poster : Option String
deriving Repr, DecidableEq

/-- `parseThreadPage` output consumed by `processThread` (the
`posterUrl` field is not consulted by any claim). -/
structure ThreadData where
  title : List Char
  magnets : List (List Char)
deriving Repr, DecidableEq

/-- The object stored by dataManager `logUnmatchedMagnet` (lines
364-374): `{ magnet, title, source, loggedAt }`.  `reason` and
`attempts` model the *absence* of those properties on the stored JS
object: the source constructs the object without them, so they are
always `none`. -/
structure OrphanRecord where
  magnet : List Char
  title : List Char
  source : String
  loggedAt : String
  reason : Option String
  attempts : Option Nat
deriving Repr, DecidableEq

/-- Externally visible effects of the crawl pipeline. -/
inductive Ev where
  | hintLookup (key : String)
  | cacheRead (key : String)
  | cacheWrite (key : String) (value : String)
  | tvSearch (withYear : Bool)
  | tvDetailsFetch (id : String)
  | omdbFetch
  | showPersist (tmdbId imdbId : String)
  | catalogPersist (imdbId : String)
  | streamPersist (streamId : String)
  | orphanAppend (rec : OrphanRecord)
  | tsUpdate
deriving Repr, DecidableEq

/-- Environment of external collaborators: page fetch/parse results,
the key-value store contents, API keys and HTTP responses
(`.error` = request threw, `.ok` = response body), the
`parse-torrent-title` behaviour, and the clock. -/
structure Env where
  html : Option String
  parsePage : String → Option ThreadData
  normalize : List Char → String
  yearMatch : List Char → Option String
  hints : String → Option String
  kv : String → Option String
  tmdbKey : Bool
  omdbKey : Bool
  searchResp : String → Bool → Except Unit (Option String)
  detailsResp : String → Except Unit (Option String)
  omdbResp : String → Except Unit (Option OmdbResult)
  ptt : List Char → PttResult
  now : String

/-- tmdb.js `getTvDetails` (lines 41-57): no HTTP call without an API
key; an HTTP error or a missing/falsy `external_ids.imdb_id` yields
null. -/
def getTvDetails (env : Env) (tmdbId : String) : Option TvDetails × List Ev :=
  if !env.tmdbKey then (none, [])
  else
    match env.detailsResp tmdbId with
    | .error _ => (none, [Ev.tvDetailsFetch tmdbId])
    | .ok imdb =>
      if jsTruthyStr imdb then (some ⟨tmdbId, imdb.getD ""⟩, [Ev.tvDetailsFetch tmdbId])
      else (none, [Ev.tvDetailsFetch tmdbId])

/-- tmdb.js `searchTv` (lines 9-39): the with-year request runs first
when `year` is truthy and short-circuits on a non-empty result list;
otherwise the without-year request runs.  The returned value models
`results[0].id`. -/
def searchTv (env : Env) (title : String) (year : Option String) :
    Option String × List Ev :=
  if !env.tmdbKey then (none, [])
  else
    if jsTruthyStr year then
      match env.searchResp title true with
      | .ok (some id) => (some id, [Ev.tvSearch true])
      | _ =>
        match env.searchResp title false with
        | .ok (some id) => (some id, [Ev.tvSearch true, Ev.tvSearch false])
        | _ => (none, [Ev.tvSearch true, Ev.tvSearch false])
    else
      match env.searchResp title false with
      | .ok (some id) => (some id, [Ev.tvSearch false])
      | _ => (none, [Ev.tvSearch false])

/-- omdb.js `searchOmdb`. -/
def searchOmdb (env : Env) (title : String) : Option OmdbResult × List Ev :=
  if !env.omdbKey then (none, [])
  else
    match env.omdbResp title with
    | .ok (some r) => (some r, [Ev.omdbFetch])
    | _ => (none, [Ev.omdbFetch])

/-- dataManager `findCachedTmdbId` (lines 329-346): the `(key, year)`
entry first when `year` is truthy, then the `(key)` entry. -/
def findCachedTmdbId (env : Env) (baseTitle : String) (year : Option String) :
    Option String × List Ev :=
  if jsTruthyStr year then
    let k1 := "show_map:" ++ baseTitle ++ ":" ++ year.getD ""
    if jsTruthyStr (env.kv k1) then (env.kv k1, [Ev.cacheRead k1])
    else
      let k2 := "show_map:" ++ baseTitle
      (env.kv k2, [Ev.cacheRead k1, Ev.cacheRead k2])
  else
    let k2 := "show_map:" ++ baseTitle
    (env.kv k2, [Ev.cacheRead k2])

/-- Modelled from the spec: `dataManager.getHint` — called at
threadProcessor.js line 248 but not defined in any dataManager revision
under src.  Spec 4.4 stage 1: "Manual hint — exact lookup in an
operator-curated key→id map". -/
def getHint (env : Env) (key : String) : Option String × List Ev :=
  (env.hints key, [Ev.hintLookup key])

/-- `const [source, id] = hint.split(':')`: the id component of a hint
value; a hint without a colon leaves `id` undefined, which the template
literal of `getTvDetails` renders as the string "undefined". -/
def hintTargetId (hint : String) : String :=
  ((hint.splitOn ":").drop 1).headD "undefined"

/-- dataManager `findOrCreateShow` (lines 216-223): refresh the
`imdb_map` entry unless it already holds this tmdb id. -/
def findOrCreateShow (env : Env) (tmdbId imdbId : String) : List Ev :=
  let existing := env.kv ("imdb_map:" ++ imdbId)
  if !jsTruthyStr existing || existing != some tmdbId then
    [Ev.showPersist tmdbId imdbId]
  else []

/-- dataManager `updateCatalog` (lines 349-355). -/
def updateCatalog (imdbId : String) : List Ev :=
  [Ev.catalogPersist imdbId]

/-- dataManager `addStream` (lines 225-250): refuse a stream with no
season and no episodes; otherwise persist under a composed stream id
(season falls back to 1 via `parsedSeason || 1`). -/
def addStream (tmdbId : String) (streamInfo : ParsedTitle) : List Ev :=
  if !jsTruthyNat streamInfo.season && streamInfo.episodes.isEmpty then []
  else
    let season := (jsOrNat streamInfo.season (some 1)).getD 1
    let isEpisodePack := decide (1 < streamInfo.episodes.length)
    let isSeasonPack := streamInfo.episodes.isEmpty
    let suffix :=
      if isSeasonPack then "s" ++ toString season ++ "-seasonpack"
      else if isEpisodePack then
        "s" ++ toString season ++ "-ep" ++ toString (streamInfo.episodes.headD 0) ++
          "-" ++ toString (streamInfo.episodes.getLastD 0)
      else "s" ++ toString season ++ "e" ++ toString (streamInfo.episodes.headD 0)
    [Ev.streamPersist (String.mk streamInfo.infoHash ++ ":" ++ suffix ++ ":" ++
      streamInfo.resolution)]

/-- dataManager `logUnmatchedMagnet` (lines 364-374).  The function
declares three parameters, so the `reason` and `baseTitle` arguments the
caller passes are dropped; the record carries no reason and no attempts
field. -/
def logUnmatchedMagnet (env : Env) (magnetUri : List Char) (originalTitle : List Char)
    (sourceUrl : String) : List Ev :=
  [Ev.orphanAppend { magnet := magnetUri, title := originalTitle, source := sourceUrl,
                     loggedAt := env.now, reason := none, attempts := none }]

/-- dataManager `updateThreadTimestamp` (lines 376-379). -/
def updateThreadTimestamp : List Ev :=
  [Ev.tsUpdate]

/-- `metaResult` of `processThread` (line 244). -/
structure MetaResult where
  tmdbId : Option String
  imdbId : Option String
  poster : Option String
  name : String
  year : Option String
deriving Repr, DecidableEq

/-- Stage 1 of the waterfall (threadProcessor lines 246-259): manual
hint, then a detail fetch on the hinted id. -/
def hintStage (env : Env) (baseTitle : String) (m0 : MetaResult) : MetaResult × List Ev :=
  let hint := env.hints baseTitle
  let ev1 := [Ev.hintLookup baseTitle]
  if jsTruthyStr hint then
    let (d, ev2) := getTvDetails env (hintTargetId (hint.getD ""))
    match d with
    | some det =>
      ({ m0 with tmdbId := some det.tmdbId, imdbId := some det.imdbId, poster := none },
       ev1 ++ ev2)
    | none => (m0, ev1 ++ ev2)
  else (m0, ev1)

/-- Stage 2 of the waterfall (lines 261-271): the Redis identity cache,
attempted only when stage 1 produced no tmdb id; a cache hit still
triggers a detail fetch on the cached id. -/
def cacheStage (env : Env) (baseTitle : String) (year : Option String)
    (m1 : MetaResult) : MetaResult × List Ev :=
  if !jsTruthyStr m1.tmdbId then
    let (cid, ev1) := findCachedTmdbId env baseTitle year
    if jsTruthyStr cid then
      let (d, ev2) := getTvDetails env (cid.getD "")
      match d with
      | some det =>
        ({ m1 with tmdbId := some det.tmdbId, imdbId := some det.imdbId, poster := none },
         ev1 ++ ev2)
      | none => (m1, ev1 ++ ev2)
    else (m1, ev1)
  else (m1, [])

/-- The TMDb search part of stage 3-4 (lines 275-282): search (with then
without year inside `searchTv`), then a detail fetch on the hit. -/
def tmdbSearchStage (env : Env) (baseTitle : String) (year : Option String)
    (m2 : MetaResult) : MetaResult × List Ev :=
  let (cand, ev1) := searchTv env baseTitle year
  if jsTruthyStr cand then
    let (d, ev2) := getTvDetails env (cand.getD "")
    match d with
    | some det =>
      ({ m2 with tmdbId := some det.tmdbId, imdbId := some det.imdbId, poster := none },
       ev1 ++ ev2)
    | none => (m2, ev1 ++ ev2)
  else (m2, ev1)

/-- The OMDb part of stage 5 (lines 283-296), attempted only when no
IMDb id is known yet; a hit triggers one more detail fetch to recover a
tmdb id. -/
def omdbStage (env : Env) (baseTitle : String) (m3 : MetaResult) : MetaResult × List Ev :=
  if !jsTruthyStr m3.imdbId then
    let (o, ev1) := searchOmdb env baseTitle
    match o with
    | some ores =>
      if jsTruthyStr (some ores.imdbId) then
        let m4 : MetaResult :=
          { m3 with imdbId := some ores.imdbId,
                    poster := if jsTruthyStr m3.poster then m3.poster else ores.poster,
                    name := ores.title, year := ores.year }
        let (d2, ev2) := getTvDetails env ores.imdbId
        match d2 with
        | some det2 =>
          if jsTruthyStr (some det2.tmdbId) then
            ({ m4 with tmdbId := some det2.tmdbId }, ev1 ++ ev2)
          else (m4, ev1 ++ ev2)
        | none => (m4, ev1 ++ ev2)
      else (m3, ev1)
    | none => (m3, ev1)
  else (m3, [])

/-- Stages 3-5 (lines 273-297): attempted only when no tmdb id is known
after the cache stage. -/
def apiStage (env : Env) (baseTitle : String) (year : Option String)
    (m2 : MetaResult) : MetaResult × List Ev :=
  if !jsTruthyStr m2.tmdbId then
    let (m3, e3) := tmdbSearchStage env baseTitle year m2
    let (m4, e4) := omdbStage env baseTitle m3
    (m4, e3 ++ e4)
  else (m2, [])

/-- The full resolution waterfall of `processThread` (lines 244-297). -/
def resolveMeta (env : Env) (baseTitle : String) (year : Option String) :
    MetaResult × List Ev :=
  let m0 : MetaResult :=
    { tmdbId := none, imdbId := none, poster := none, name := baseTitle, year := year }
  let (m1, e1) := hintStage env baseTitle m0
  let (m2, e2) := cacheStage env baseTitle year m1
  let (m3, e3) := apiStage env baseTitle year m2
  (m3, e1 ++ e2 ++ e3)

/-- The per-magnet loop of the success path (lines 302-309).  The
boolean is true when a magnet aborted the loop by throwing (a
`decodeURIComponent` `URIError` inside `parseTitle`). -/
def magnetLoop (env : Env) (tmdbId : String) (title : List Char) (threadUrl : String) :
    List (List Char) → List Ev × Bool
  | [] => ([], false)
  | m :: rest =>
    match parseTitle env.ptt m with
    | .error _ => ([], true)
    | .ok (some p) =>
      let r := magnetLoop env tmdbId title threadUrl rest
      (addStream tmdbId p ++ r.1, r.2)
    | .ok none =>
      let r := magnetLoop env tmdbId title threadUrl rest
      (logUnmatchedMagnet env m title threadUrl ++ r.1, r.2)

/-- The catch block (lines 316-329): one `logUnmatchedMagnet` per magnet
(the computed reason string only feeds the logger; `logUnmatchedMagnet`
drops it). -/
def catchBlock (env : Env) (td : ThreadData) (threadUrl : String) : List Ev :=
  if decide (0 < td.magnets.length) then
    td.magnets.flatMap (fun m => logUnmatchedMagnet env m td.title threadUrl)
  else []

/-- threadProcessor `processThread` (lines 220-330) as the trace of its
externally visible effects. -/
def processThread (env : Env) (threadUrl : String) : List Ev :=
  match env.html with
  | none => []
  | some html =>
    match env.parsePage html with
    | none => updateThreadTimestamp
    | some td =>
      if td.title.isEmpty || td.magnets.isEmpty then updateThreadTimestamp
      else
        let baseTitle := env.normalize td.title
        let year := env.yearMatch td.title
        if baseTitle = "" then
          catchBlock env td threadUrl
        else
          let (m, evR) := resolveMeta env baseTitle year
          if jsTruthyStr m.imdbId && jsTruthyStr m.tmdbId then
            let evP := findOrCreateShow env (m.tmdbId.getD "") (m.imdbId.getD "")
            let evC := updateCatalog (m.imdbId.getD "")
            let (evM, aborted) := magnetLoop env (m.tmdbId.getD "") td.title threadUrl td.magnets
            if aborted then evR ++ evP ++ evC ++ evM ++ catchBlock env td threadUrl
            else evR ++ evP ++ evC ++ evM ++ updateThreadTimestamp
          else
            evR ++ catchBlock env td threadUrl

/-- Classification helpers over the event trace. -/
def isProviderCallEv : Ev → Bool
  | .tvSearch _ => true
  | .tvDetailsFetch _ => true
  | .omdbFetch => true
  | _ => false

def isSearchEv : Ev → Bool
  | .tvSearch _ => true
  | .omdbFetch => true
  | _ => false

def isDetailsEv : Ev → Bool
  | .tvDetailsFetch _ => true
  | _ => false

def isPersistEv : Ev → Bool
  | .showPersist _ _ => true
  | .catalogPersist _ => true
  | .streamPersist _ => true
  | _ => false

def isCacheWriteEv : Ev → Bool
  | .cacheWrite _ _ => true
  | _ => false

def orphanOf : Ev → Option OrphanRecord
  | .orphanAppend r => some r
  | _ => none

def isCallEv : Ev → Bool
  | .hintLookup _ => true
  | .cacheRead _ => true
  | .tvSearch _ => true
  | .tvDetailsFetch _ => true
  | .omdbFetch => true
  | _ => false

/-- A base environment for concrete runs: everything empty or failing. -/
def envBase : Env where
  html := none
  parsePage := fun _ => none
  normalize := fun _ => ""
  yearMatch := fun _ => none
  hints := fun _ => none
  kv := fun _ => none
  tmdbKey := true
  omdbKey := true
  searchResp := fun _ _ => .ok none
  detailsResp := fun _ => .ok none
  omdbResp := fun _ => .ok none
  ptt := fun _ => ⟨none, none, none⟩
  now := "t0"

/-- Concrete environment for C2: the identity cache holds an id for
`(myshow, 2023)` and the detail endpoint resolves it. -/
def envC2 : Env :=
  { envBase with
    kv := fun k => if k = "show_map:myshow:2023" then some "77" else none,
    detailsResp := fun id => if id = "77" then .ok (some "tt0042") else .ok none }

/-- Concrete environment for C8: the provider search succeeds and the
details endpoint returns an IMDb id. -/
def envC8 : Env :=
  { envBase with
    searchResp := fun _ _ => .ok (some "88"),
    detailsResp := fun id => if id = "88" then .ok (some "tt0088") else .ok none }

/-- Concrete environment for C4/C7 witnesses: a page with one magnet
whose display name parses, and a provider waterfall that succeeds. -/
def envC4 : Env :=
  { envBase with
    html := some "page",
    parsePage := fun _ => some
      { title := "Show 2023".data,
        magnets := ["magnet:?xt=urn:btih:0123456789abcdef0123456789abcdef01234567&dn=Show+S01E05".data] },
    normalize := fun _ => "show",
    searchResp := fun _ _ => .ok (some "77"),
    detailsResp := fun id => if id = "77" then .ok (some "tt0077") else .ok none }

/-- Concrete environment for C7: a page with two magnets and no working
provider (no API keys), so the waterfall fails. -/
def envC7 : Env :=
  { envBase with
    html := some "page",
    parsePage := fun _ => some
      { title := "Show 2023".data,
        magnets := ["magnet:one".data, "magnet:two".data] },
    normalize := fun _ => "show",
    tmdbKey := false,
    omdbKey := false }




/-! ## `src/crawler/workerPool.js` (the EventEmitter revision of
part_009, with `taskQueue`, fixed `workers` slots, `activeTasks`,
`isDrained` and the `drained` notification)

The pool runs on the Node event loop: handlers (`run`, and the
`message`/`error`/`exit` worker events, which all invoke the shared
`onDone` closure) execute atomically in delivery order.  A schedule is a
list of `submit` calls and worker-event deliveries; each live worker
delivers its scripted events in order, and schedules may interleave
deliveries of different workers arbitrarily, which is exactly the
freedom the event loop has. -/

/-- A worker lifecycle event.  In this pool revision the `message`,
`error` and `exit` handlers all call `onDone`, so the kind only matters
for how many deliveries a worker produces (a normal worker posts
`message` and then fires `exit`). -/
inductive WEv where
  | msg
  | err
  | exit
deriving Repr, DecidableEq

/-- A live (or finished) worker: its id, the slot it was started in, and
the events it has not yet delivered. -/
structure WorkerRec where
  wid : Nat
  slotIdx : Nat
  pending : List WEv
deriving Repr, DecidableEq

/-- The pool state, mirroring the fields of the `WorkerPool` class plus
the bookkeeping a schedule needs (`running`, `dispatched`,
`drainedCount`). -/
structure Pool where
  queue : List Nat
  slots : List (Option Nat)
  activeTasks : Int
  isDrained : Bool
  nextWid : Nat
  running : List WorkerRec
  dispatched : List (Nat × Nat)
  drainedCount : Nat
deriving Repr, DecidableEq

/-- `processQueue` (part_009 lines 38-54): while the queue is non-empty
and an idle slot exists, shift the earliest task and start a fresh
worker in that slot (`startWorker` lines 56-60).  `scripts` gives each
task the events its worker will deliver. -/
def processQueueAux (scripts : Nat → List WEv) : Nat → Pool → Pool
  | 0, st => st
  | fuel + 1, st =>
    match st.queue with
    | [] => st
    | t :: rest =>
      match st.slots.findIdx? (fun s => s.isNone) with
      | none => st
      | some i =>
        processQueueAux scripts fuel
          { st with
            queue := rest,
            slots := st.slots.set i (some st.nextWid),
            activeTasks := st.activeTasks + 1,
            nextWid := st.nextWid + 1,
            running := st.running ++ [⟨st.nextWid, i, scripts t⟩],
            dispatched := st.dispatched ++ [(t, st.nextWid)] }

def processQueue (scripts : Nat → List WEv) (st : Pool) : Pool :=
  processQueueAux scripts st.queue.length st

/-- The shared `onDone` closure (part_009 lines 62-76): if the slot is
still occupied, free it, decrement `activeTasks`, re-run `processQueue`,
and emit `drained` when both the active count and the queue reach
zero. -/
def onDone (scripts : Nat → List WEv) (st : Pool) (slotIdx : Nat) : Pool :=
  if st.slots.getD slotIdx none != none then
    let st2 := processQueue scripts
      { st with slots := st.slots.set slotIdx none, activeTasks := st.activeTasks - 1 }
    if st2.activeTasks == 0 && st2.queue.isEmpty then
      { st2 with isDrained := true, drainedCount := st2.drainedCount + 1 }
    else st2
  else st

/-- Which worker events invoke `onDone` in the part_009 revision: all
three handlers (`message` line 78, `error` line 82, `exit` line 87) call
it. -/
def evDone9 (_ : WEv) : Bool := true

/-- Which worker events invoke `onDone` in the part_010 revision: the
`message` handler (line 75) no longer calls it, but `error` (line 79)
and `exit` (line 84) still both do. -/
def evDone10 : WEv → Bool
  | WEv.msg => false
  | _ => true

/-- Deliver the next pending event of worker `wid`; if the revision's
handler for that event calls `onDone`, run it with the slot index
captured at start time. -/
def deliverEv (done : WEv → Bool) (scripts : Nat → List WEv)
    (st : Pool) (wid : Nat) : Pool :=
  match st.running.find? (fun r => r.wid == wid) with
  | none => st
  | some r =>
    match r.pending with
    | [] => st
    | e :: rest =>
      let upd := fun (q : WorkerRec) =>
        if q.wid == wid then { q with pending := rest } else q
      let st1 := { st with running := st.running.map upd }
      if done e then onDone scripts st1 r.slotIdx else st1

/-- `run(taskData)` (part_009 lines 27-36): push the task, clear
`isDrained`, try to dispatch. -/
def runTask (scripts : Nat → List WEv) (st : Pool) (t : Nat) : Pool :=
  processQueue scripts { st with queue := st.queue ++ [t], isDrained := false }

/-- One event-loop turn: either the crawler submits a task or one worker
event is delivered. -/
inductive PStep where
  | submit (t : Nat)
  | deliver (wid : Nat)
deriving Repr, DecidableEq

def poolInit (n : Nat) : Pool :=
  { queue := [], slots := List.replicate n none, activeTasks := 0, isDrained := true,
    nextWid := 0, running := [], dispatched := [], drainedCount := 0 }

def runPool (done : WEv → Bool) (scripts : Nat → List WEv) :
    Pool → List PStep → Pool
  | st, [] => st
  | st, PStep.submit t :: rest =>
      runPool done scripts (runTask scripts st t) rest
  | st, PStep.deliver w :: rest =>
      runPool done scripts (deliverEv done scripts st w) rest

/-- The schedule of the two-task race on a one-slot pool: submit both
tasks, then deliver worker 0's two events back to back (its result
message — or, in the part_010 run, its error event — followed by its
exit), before worker 1 has delivered anything. -/
def c3Sched : List PStep :=
  [PStep.submit 0, PStep.submit 1, PStep.deliver 0, PStep.deliver 0]

/-- Final pool state of the part_009 revision on `c3Sched`: both workers
finish normally (`message` then `exit`, each calling `onDone`). -/
def c3Final9 : Pool :=
  runPool evDone9 (fun _ => [WEv.msg, WEv.exit]) (poolInit 1) c3Sched

/-- Worker scripts for the part_010 run: task 0's worker errors
(`error` then `exit`), task 1's worker is normal. -/
def c3Scripts10 : Nat → List WEv :=
  fun t => if t == 0 then [WEv.err, WEv.exit] else [WEv.msg, WEv.exit]

/-- Final pool state of the part_010 revision on `c3Sched`. -/
def c3Final10 : Pool :=
  runPool evDone10 c3Scripts10 (poolInit 1) c3Sched

/-! ## Engine lemmas -/

lemma mtch_cls_pos {p : Char → Bool} {c : Char} {l : List Char} {caps : Caps}
    (h : p c = true) : mtch (.cls p) (c :: l) caps = [(l, caps)] := by
  simp [mtch, h]

lemma mtch_cls_neg {p : Char → Bool} {c : Char} {l : List Char} {caps : Caps}
    (h : p c = false) : mtch (.cls p) (c :: l) caps = [] := by
  simp [mtch, h]

lemma fm_seq {a b : RPat} {s : List Char} {caps : Caps} {x y : List Char × Caps}
    (ha : (mtch a s caps).head? = some x)
    (hb : (mtch b x.1 x.2).head? = some y) :
    (mtch (.seq a b) s caps).head? = some y := by
  cases hm : mtch a s caps with
  | nil => rw [hm] at ha; exact absurd ha (by simp)
  | cons z t =>
    rw [hm] at ha
    simp only [List.head?_cons, Option.some.injEq] at ha
    subst ha
    cases hn : mtch b z.1 z.2 with
    | nil => rw [hn] at hb; exact absurd hb (by simp)
    | cons w u =>
      rw [hn] at hb
      simp only [List.head?_cons, Option.some.injEq] at hb
      subst hb
      simp [mtch, hm, hn]

lemma fm_grp {i : Nat} {a : RPat} {s : List Char} {caps : Caps} {x : List Char × Caps}
    (h : (mtch a s caps).head? = some x) :
    (mtch (.grp i a) s caps).head? =
      some (x.1, (i, s.take (s.length - x.1.length)) :: x.2) := by
  cases hm : mtch a s caps with
  | nil => rw [hm] at h; exact absurd h (by simp)
  | cons z t =>
    rw [hm] at h
    simp only [List.head?_cons, Option.some.injEq] at h
    subst h
    simp [mtch, hm]

lemma fm_opt_skip {a : RPat} {s : List Char} {caps : Caps}
    (h : mtch a s caps = []) : (mtch (.opt a) s caps).head? = some (s, caps) := by
  simp [mtch, h]

lemma fm_opt_take {a : RPat} {s : List Char} {caps : Caps} {x : List Char × Caps}
    (h : (mtch a s caps).head? = some x) :
    (mtch (.opt a) s caps).head? = some x := by
  cases hm : mtch a s caps with
  | nil => rw [hm] at h; exact absurd h (by simp)
  | cons z t =>
    rw [hm] at h
    simp only [List.head?_cons, Option.some.injEq] at h
    subst h
    simp [mtch, hm]

lemma countRun_append {p : Char → Bool} {ds rest : List Char}
    (hall : ∀ c ∈ ds, p c = true)
    (hstop : ∀ c, rest.head? = some c → p c = false) :
    countRun p (ds ++ rest) = ds.length := by
  induction ds with
  | nil =>
    simp only [List.nil_append, List.length_nil]
    cases rest with
    | nil => simp [countRun]
    | cons c r =>
      have := hstop c (by simp)
      simp [countRun, List.takeWhile, this]
  | cons d ds ih =>
    have hd : p d = true := hall d (by simp)
    have := ih (fun c hc => hall c (by simp [hc]))
    simp only [List.cons_append, countRun, List.takeWhile, hd, List.length_cons]
    simpa [countRun] using this

lemma fm_rep_exact {p : Char → Bool} {lo k : Nat} {ds rest : List Char} {caps : Caps}
    (hall : ∀ c ∈ ds, p c = true)
    (hstop : ∀ c, rest.head? = some c → p c = false)
    (hlo : lo ≤ ds.length) (hk : ds.length ≤ k) :
    (mtch (.rep p lo (some k)) (ds ++ rest) caps).head? = some (rest, caps) := by
  have hcr : countRun p (ds ++ rest) = ds.length := countRun_append hall hstop
  have hm : min ((some k).getD (ds ++ rest).length) (countRun p (ds ++ rest)) = ds.length := by
    simp [hcr, Nat.min_eq_right hk]
  simp only [mtch, hm]
  rw [if_neg (by omega)]
  have hrange : ds.length + 1 - lo = (ds.length - lo) + 1 := by omega
  rw [hrange, List.range_succ_eq_map]
  simp [List.drop_left]

lemma fm_cls {p : Char → Bool} {c : Char} {l : List Char} {caps : Caps}
    (h : p c = true) : (mtch (.cls p) (c :: l) caps).head? = some (l, caps) := by
  rw [mtch_cls_pos h]; rfl

lemma jsSearch_of_fm {pat : RPat} {s : List Char} {r : List Char × Caps}
    (h : (mtch pat s []).head? = some r) : jsSearch pat s = some r.2 := by
  cases s with
  | nil => simp [jsSearch, jsSearchFrom, h]
  | cons c rest => simp [jsSearch, jsSearchFrom, h]

lemma dCls_of_mem {ds : List Char} (h : ∀ c ∈ ds, dCls c = true) :
    ∀ c, ds.head? = some c → dCls c = true := by
  intro c hc
  cases ds with
  | nil => simp at hc
  | cons d r => simp at hc; exact hc ▸ h d (by simp)

lemma jsSearch_pat2_range (ds as bs : List Char)
    (hds : ∀ c ∈ ds, dCls c = true) (has : ∀ c ∈ as, dCls c = true)
    (hbs : ∀ c ∈ bs, dCls c = true)
    (hd1 : 1 ≤ ds.length) (hd2 : ds.length ≤ 2)
    (ha1 : 1 ≤ as.length) (ha2 : as.length ≤ 3)
    (hb1 : 1 ≤ bs.length) (hb2 : bs.length ≤ 3) :
    jsSearch pat2 ('S' :: (ds ++ 'E' :: (as ++ '-' :: 'E' :: bs))) =
      some [(3, bs), (2, as), (1, ds)] := by
  have estop : ∀ (c : Char), (('E' :: (as ++ '-' :: 'E' :: bs)).head? = some c) → dCls c = false := by
    intro c hc; simp at hc; subst hc; decide
  have dstop : ∀ (c : Char), (('-' :: 'E' :: bs).head? = some c) → dCls c = false := by
    intro c hc; simp at hc; subst hc; decide
  have nstop : ∀ (c : Char), (([] : List Char).head? = some c) → dCls c = false := by
    intro c hc; simp at hc
  -- group 3 at position `bs`
  have h8 : (mtch (.grp 3 (.rep dCls 1 (some 3))) bs [(2, as), (1, ds)]).head? =
      some ([], [(3, bs), (2, as), (1, ds)]) := by
    have hrep := @fm_rep_exact dCls 1 3 bs [] [(2, as), (1, ds)] hbs nstop hb1 hb2
    rw [List.append_nil] at hrep
    have := fm_grp (i := 3) hrep
    simpa using this
  -- `E?` then group 3 at position `'E' :: bs`
  have h7 : (mtch (.seq (.opt (.cls eCls)) (.grp 3 (.rep dCls 1 (some 3))))
      ('E' :: bs) [(2, as), (1, ds)]).head? = some ([], [(3, bs), (2, as), (1, ds)]) :=
    fm_seq (fm_opt_take (fm_cls (by decide))) h8
  -- `[-‑]` at `'-' :: 'E' :: bs`
  have h6 : (mtch (.seq (.cls dashCls) (.seq (.opt (.cls eCls)) (.grp 3 (.rep dCls 1 (some 3)))))
      ('-' :: 'E' :: bs) [(2, as), (1, ds)]).head? =
      some ([], [(3, bs), (2, as), (1, ds)]) :=
    fm_seq (fm_cls (by decide)) h7
  -- group 2 at `as ++ '-' :: 'E' :: bs`
  have h5rep := @fm_rep_exact dCls 1 3 as ('-' :: 'E' :: bs) [(1, ds)] has dstop ha1 ha2
  have h5 : (mtch (.grp 2 (.rep dCls 1 (some 3))) (as ++ '-' :: 'E' :: bs) [(1, ds)]).head? =
      some ('-' :: 'E' :: bs, [(2, as), (1, ds)]) := by
    have := fm_grp (i := 2) h5rep
    simpa [List.take_left] using this
  -- assemble the tail: group2, dash, optional E, group3
  have hq5 : (mtch (.seq (.grp 2 (.rep dCls 1 (some 3)))
      (.seq (.cls dashCls) (.seq (.opt (.cls eCls)) (.grp 3 (.rep dCls 1 (some 3))))))
      (as ++ '-' :: 'E' :: bs) [(1, ds)]).head? =
      some ([], [(3, bs), (2, as), (1, ds)]) :=
    fm_seq h5 h6
  have hq4 : (mtch (.seq (.cls eCls) (.seq (.grp 2 (.rep dCls 1 (some 3)))
      (.seq (.cls dashCls) (.seq (.opt (.cls eCls)) (.grp 3 (.rep dCls 1 (some 3)))))))
      ('E' :: (as ++ '-' :: 'E' :: bs)) [(1, ds)]).head? =
      some ([], [(3, bs), (2, as), (1, ds)]) :=
    fm_seq (fm_cls (by decide)) hq5
  have hq3 : (mtch (.seq (.opt (.cls spaceCls)) (.seq (.cls eCls)
      (.seq (.grp 2 (.rep dCls 1 (some 3))) (.seq (.cls dashCls)
      (.seq (.opt (.cls eCls)) (.grp 3 (.rep dCls 1 (some 3))))))))
      ('E' :: (as ++ '-' :: 'E' :: bs)) [(1, ds)]).head? =
      some ([], [(3, bs), (2, as), (1, ds)]) :=
    fm_seq (fm_opt_skip (mtch_cls_neg (by decide))) hq4
  have h2rep := @fm_rep_exact dCls 1 2 ds ('E' :: (as ++ '-' :: 'E' :: bs)) [] hds estop hd1 hd2
  have h2 : (mtch (.grp 1 (.rep dCls 1 (some 2)))
      (ds ++ 'E' :: (as ++ '-' :: 'E' :: bs)) []).head? =
      some ('E' :: (as ++ '-' :: 'E' :: bs), [(1, ds)]) := by
    have := fm_grp (i := 1) h2rep
    simpa [List.take_left] using this
  have hq2 : (mtch (.seq (.grp 1 (.rep dCls 1 (some 2))) (.seq (.opt (.cls spaceCls))
      (.seq (.cls eCls) (.seq (.grp 2 (.rep dCls 1 (some 3))) (.seq (.cls dashCls)
      (.seq (.opt (.cls eCls)) (.grp 3 (.rep dCls 1 (some 3)))))))))
      (ds ++ 'E' :: (as ++ '-' :: 'E' :: bs)) []).head? =
      some ([], [(3, bs), (2, as), (1, ds)]) :=
    fm_seq h2 hq3
  have hq1 : (mtch pat2 ('S' :: (ds ++ 'E' :: (as ++ '-' :: 'E' :: bs))) []).head? =
      some ([], [(3, bs), (2, as), (1, ds)]) := by
    show (mtch (.seq (.cls sCls) (.seq (.grp 1 (.rep dCls 1 (some 2)))
      (.seq (.opt (.cls spaceCls)) (.seq (.cls eCls) (.seq (.grp 2 (.rep dCls 1 (some 3)))
      (.seq (.cls dashCls) (.seq (.opt (.cls eCls)) (.grp 3 (.rep dCls 1 (some 3))))))))))
      ('S' :: (ds ++ 'E' :: (as ++ '-' :: 'E' :: bs))) []).head? = _
    exact fm_seq (fm_cls (by decide)) hq2
  exact jsSearch_of_fm hq1

lemma mem_mtch_exists_pre :
    ∀ (p : RPat) (s : List Char) (caps : Caps) (r : List Char × Caps),
      r ∈ mtch p s caps → ∃ pre, pre ++ r.1 = s := by
  intro p
  induction p with
  | cls q =>
    intro s caps r hr
    cases s with
    | nil => simp [mtch] at hr
    | cons c rest =>
      by_cases hq : q c = true
      · rw [mtch_cls_pos hq] at hr
        simp at hr
        exact ⟨[c], by simp [hr]⟩
      · rw [mtch_cls_neg (by simpa using hq)] at hr
        simp at hr
  | seq a b iha ihb =>
    intro s caps r hr
    simp only [mtch, List.mem_flatMap] at hr
    obtain ⟨x, hx, hr⟩ := hr
    obtain ⟨pre1, h1⟩ := iha s caps x hx
    obtain ⟨pre2, h2⟩ := ihb x.1 x.2 r hr
    exact ⟨pre1 ++ pre2, by rw [List.append_assoc, h2, h1]⟩
  | alt a b iha ihb =>
    intro s caps r hr
    simp only [mtch, List.mem_append] at hr
    rcases hr with hr | hr
    exacts [iha s caps r hr, ihb s caps r hr]
  | opt a iha =>
    intro s caps r hr
    simp only [mtch, List.mem_append] at hr
    rcases hr with hr | hr
    · exact iha s caps r hr
    · simp at hr
      exact ⟨[], by simp [hr]⟩
  | rep q lo hi =>
    intro s caps r hr
    simp only [mtch] at hr
    split at hr
    · simp at hr
    · simp only [List.mem_map, List.mem_range] at hr
      obtain ⟨j, _, hj⟩ := hr
      exact ⟨s.take (min (hi.getD s.length) (countRun q s) - j), by
        rw [← hj]; simp [List.take_append_drop]⟩
  | grp i a iha =>
    intro s caps r hr
    simp only [mtch, List.mem_map] at hr
    obtain ⟨x, hx, hr⟩ := hr
    obtain ⟨pre, hpre⟩ := iha s caps x hx
    exact ⟨pre, by rw [← hr]; exact hpre⟩
  | nla a iha =>
    intro s caps r hr
    simp only [mtch] at hr
    split at hr
    · simp at hr
      exact ⟨[], by simp [hr]⟩
    · simp at hr

lemma countRun_pos_head {p : Char → Bool} {s : List Char} (h : 1 ≤ countRun p s) :
    ∃ c rest, s = c :: rest ∧ p c = true := by
  cases s with
  | nil => simp [countRun] at h
  | cons c rest =>
    by_cases hp : p c = true
    · exact ⟨c, rest, rfl, hp⟩
    · rw [countRun, List.takeWhile_cons, if_neg (by simpa using hp)] at h
      simp at h

lemma mem_mtch_mustSee {q : Char → Bool} :
    ∀ (p : RPat) (s : List Char) (caps : Caps) (r : List Char × Caps),
      MustSee q p → r ∈ mtch p s caps → ∃ c ∈ s, q c = true := by
  intro p
  induction p with
  | cls cp =>
    intro s caps r hM hr
    cases s with
    | nil => simp [mtch] at hr
    | cons c rest =>
      by_cases hq : cp c = true
      · exact ⟨c, by simp, hM c hq⟩
      · rw [mtch_cls_neg (by simpa using hq)] at hr
        simp at hr
  | seq a b iha ihb =>
    intro s caps r hM hr
    simp only [mtch, List.mem_flatMap] at hr
    obtain ⟨x, hx, hr⟩ := hr
    rcases hM with hM | hM
    · exact iha s caps x hM hx
    · obtain ⟨c, hc, hqc⟩ := ihb x.1 x.2 r hM hr
      obtain ⟨pre, hpre⟩ := mem_mtch_exists_pre a s caps x hx
      exact ⟨c, by rw [← hpre]; exact List.mem_append_right _ hc, hqc⟩
  | alt a b iha ihb =>
    intro s caps r hM hr
    simp only [mtch, List.mem_append] at hr
    rcases hr with hr | hr
    exacts [iha s caps r hM.1 hr, ihb s caps r hM.2 hr]
  | opt a iha =>
    intro _ _ _ hM _
    exact absurd hM (by simp [MustSee])
  | rep cp lo hi =>
    intro s caps r hM hr
    simp only [mtch] at hr
    split at hr
    · simp at hr
    · rename_i hge
      have hcr : 1 ≤ countRun cp s := by
        simp only [not_lt] at hge
        have := le_trans hM.1 (le_trans hge (min_le_right _ _))
        omega
      obtain ⟨c, rest, hs, hc⟩ := countRun_pos_head hcr
      exact ⟨c, by simp [hs], hM.2 c hc⟩
  | grp i a iha =>
    intro s caps r hM hr
    simp only [mtch, List.mem_map] at hr
    obtain ⟨x, hx, _⟩ := hr
    exact iha s caps x hM hx
  | nla a iha =>
    intro _ _ _ hM _
    exact absurd hM (by simp [MustSee])

lemma jsSearch_none_of_mustSee {q : Char → Bool} {p : RPat} (hM : MustSee q p) :
    ∀ s : List Char, (∀ c ∈ s, q c = false) → jsSearch p s = none := by
  intro s
  induction s with
  | nil =>
    intro _
    cases hm : mtch p [] [] with
    | nil => simp [jsSearch, jsSearchFrom, hm]
    | cons x t =>
      obtain ⟨c, hc, _⟩ := mem_mtch_mustSee p [] [] x hM (by rw [hm]; simp)
      simp at hc
  | cons c rest ih =>
    intro hall
    cases hm : mtch p (c :: rest) [] with
    | cons x t =>
      obtain ⟨c', hc', hq'⟩ := mem_mtch_mustSee p (c :: rest) [] x hM (by rw [hm]; simp)
      rw [hall c' hc'] at hq'
      exact absurd hq' (by simp)
    | nil =>
      have := ih (fun c' hc' => hall c' (by simp [hc']))
      simp only [jsSearch, jsSearchFrom, hm] at this ⊢
      exact this

lemma beq_false_of_dCls (c x : Char) (h : dCls c = true) (hx : dCls x = false) :
    (c == x) = false := by
  cases hcx : c == x
  · rfl
  · rw [beq_iff_eq] at hcx
    rw [hcx, hx] at h
    exact absurd h (by simp)

lemma mustSee_pat1 : MustSee lparCls pat1 := by
  show MustSee lparCls (.seq _ (.seq _ (.seq _ (.seq _ (.seq _ (.seq _ (.seq (.cls lparCls) _)))))))
  exact Or.inr (Or.inr (Or.inr (Or.inr (Or.inr (Or.inr (Or.inl (fun _ h => h)))))))

lemma mustSee_pat3 : MustSee pCls pat3 := by
  show MustSee pCls (.seq _ (.seq _ (.seq _ (.seq (.cls pCls) _))))
  exact Or.inr (Or.inr (Or.inr (Or.inl (fun _ h => h))))

lemma mustSee_pat4 : MustSee lparCls pat4 := by
  show MustSee lparCls (.seq _ (.seq _ (.seq _ (.seq (.cls lparCls) _))))
  exact Or.inr (Or.inr (Or.inr (Or.inl (fun _ h => h))))

lemma lparCls_of_digit {c : Char} (h : dCls c = true) : lparCls c = false := by
  unfold lparCls
  exact beq_false_of_dCls c '(' h (by decide)

lemma pCls_of_digit {c : Char} (h : dCls c = true) : pCls c = false := by
  unfold pCls ciCls
  rw [beq_false_of_dCls c 'p' h (by decide), beq_false_of_dCls c 'P' h (by decide)]
  rfl

lemma rangeTitle_mem {ds as bs : List Char} {c : Char}
    (hc : c ∈ 'S' :: (ds ++ 'E' :: (as ++ '-' :: 'E' :: bs))) :
    c = 'S' ∨ c ∈ ds ∨ c = 'E' ∨ c ∈ as ∨ c = '-' ∨ c ∈ bs := by
  simp only [List.mem_cons, List.mem_append, List.mem_cons] at hc
  tauto

lemma parseIntJS_digits {ds : List Char} (hds : ∀ c ∈ ds, dCls c = true)
    (hlen : 1 ≤ ds.length) : parseIntJS (some ds) = some (digitsVal ds) := by
  have : ds.takeWhile (·.isDigit) = ds := by
    induction ds with
    | nil => rfl
    | cons d r ih =>
      have hd : dCls d = true := hds d (by simp)
      rw [List.takeWhile_cons, if_pos (by simpa [dCls] using hd)]
      cases r with
      | nil => rfl
      | cons e u =>
        rw [ih (fun c hc => hds c (by simp [List.mem_cons] at hc ⊢; tauto)) (by simp)]
  simp only [parseIntJS, this]
  cases ds with
  | nil => simp at hlen
  | cons d r => simp

lemma seasonEpisodes_range (ds as bs : List Char)
    (hds : ∀ c ∈ ds, dCls c = true) (has : ∀ c ∈ as, dCls c = true)
    (hbs : ∀ c ∈ bs, dCls c = true)
    (hd1 : 1 ≤ ds.length) (hd2 : ds.length ≤ 2)
    (ha1 : 1 ≤ as.length) (ha2 : as.length ≤ 3)
    (hb1 : 1 ≤ bs.length) (hb2 : bs.length ≤ 3)
    (hpos : 1 ≤ digitsVal ds) (hab : digitsVal as ≤ digitsVal bs)
    (ptt : PttResult) :
    seasonEpisodes ptt ('S' :: (ds ++ 'E' :: (as ++ '-' :: 'E' :: bs))) =
      (some (digitsVal ds),
        (List.range (digitsVal bs + 1 - digitsVal as)).map (fun i => digitsVal as + i)) := by
  have hchars : ∀ c ∈ 'S' :: (ds ++ 'E' :: (as ++ '-' :: 'E' :: bs)), lparCls c = false := by
    intro c hc
    rcases rangeTitle_mem hc with h | h | h | h | h | h
    · rw [h]; decide
    · exact lparCls_of_digit (hds c h)
    · rw [h]; decide
    · exact lparCls_of_digit (has c h)
    · rw [h]; decide
    · exact lparCls_of_digit (hbs c h)
  have hp1 : jsSearch pat1 ('S' :: (ds ++ 'E' :: (as ++ '-' :: 'E' :: bs))) = none :=
    jsSearch_none_of_mustSee mustSee_pat1 _ hchars
  have hp2 := jsSearch_pat2_range ds as bs hds has hbs hd1 hd2 ha1 ha2 hb1 hb2
  have hcaps1 : capStr [(3, bs), (2, as), (1, ds)] 1 = some ds := by
    simp [capStr, List.find?]
  have hcaps2 : capStr [(3, bs), (2, as), (1, ds)] 2 = some as := by
    simp [capStr, List.find?]
  have hcaps3 : capStr [(3, bs), (2, as), (1, ds)] 3 = some bs := by
    simp [capStr, List.find?]
  have happ : applyPat ptt PatType.episodePack [(3, bs), (2, as), (1, ds)] none [] =
      (some (digitsVal ds), episodeRange (digitsVal as) (digitsVal bs)) := by
    unfold applyPat
    rw [hcaps1, hcaps2, hcaps3, parseIntJS_digits hds hd1, parseIntJS_digits has ha1,
      parseIntJS_digits hbs hb1]
  have hlen : 0 < (episodeRange (digitsVal as) (digitsVal bs)).length := by
    simp [episodeRange]
    omega
  have hloop : patLoop ptt ('S' :: (ds ++ 'E' :: (as ++ '-' :: 'E' :: bs)))
      PARSING_PATTERNS none [] =
      (some (digitsVal ds), episodeRange (digitsVal as) (digitsVal bs)) := by
    simp only [PARSING_PATTERNS, patLoop, hp1, hp2, happ]
    rw [if_pos]
    simp only [jsTruthyNat, Bool.and_eq_true, Bool.or_eq_true, decide_eq_true_eq]
    constructor
    · simp only [bne_iff_ne]
      omega
    · exact Or.inl hlen
  have htruthy : jsTruthyNat (some (digitsVal ds)) = true := by
    simp only [jsTruthyNat, bne_iff_ne, ne_eq]
    omega
  unfold seasonEpisodes
  rw [hloop]
  simp only [htruthy, Bool.not_true, Bool.false_and, Bool.false_eq_true, if_false]
  rfl

lemma seasonEpisodes_surface1 (ptt : PttResult) :
    seasonEpisodes ptt "S01EP(01-09)".data = (some 1, [1, 2, 3, 4, 5, 6, 7, 8, 9]) := by
  have h1 : jsSearch pat1 "S01EP(01-09)".data =
      some [(3, ['0', '9']), (2, ['0', '1']), (1, ['0', '1'])] := by decide
  have happ : applyPat ptt PatType.episodePack
      [(3, ['0', '9']), (2, ['0', '1']), (1, ['0', '1'])] none [] =
      (some 1, [1, 2, 3, 4, 5, 6, 7, 8, 9]) := rfl
  unfold seasonEpisodes
  simp only [PARSING_PATTERNS, patLoop, h1, happ]
  rfl

lemma seasonEpisodes_surface2 (ptt : PttResult) :
    seasonEpisodes ptt "S01E01-E09".data = (some 1, [1, 2, 3, 4, 5, 6, 7, 8, 9]) := by
  have h1 : jsSearch pat1 "S01E01-E09".data = none := by decide
  have h2 : jsSearch pat2 "S01E01-E09".data =
      some [(3, ['0', '9']), (2, ['0', '1']), (1, ['0', '1'])] := by decide
  have happ : applyPat ptt PatType.episodePack
      [(3, ['0', '9']), (2, ['0', '1']), (1, ['0', '1'])] none [] =
      (some 1, [1, 2, 3, 4, 5, 6, 7, 8, 9]) := rfl
  unfold seasonEpisodes
  simp only [PARSING_PATTERNS, patLoop, h1, h2, happ]
  rfl

/-! ## Claim C5 -/

/-- C5: for every descriptor whose display name matches the episode-range
pattern `S<season>E<start>-E<end>` (season a 1-2 digit number ≥ 1, start
and end 1-3 digit numbers with start ≤ end), the parser yields that
season together with the inclusive episode list `[start..end]` — for any
behaviour of the `parse-torrent-title` library, since the matching pack
rule short-circuits before the library fallback; and the two surface
forms `S01EP(01-09)` and `S01E01-E09` parse to the identical
season/episodes result, namely season 1 with episodes `[1..9]`. -/
theorem spec_c5_episode_range_parsing
    (ds as bs : List Char)
    (hds : ∀ c ∈ ds, dCls c = true) (has : ∀ c ∈ as, dCls c = true)
    (hbs : ∀ c ∈ bs, dCls c = true)
    (hd1 : 1 ≤ ds.length) (hd2 : ds.length ≤ 2)
    (ha1 : 1 ≤ as.length) (ha2 : as.length ≤ 3)
    (hb1 : 1 ≤ bs.length) (hb2 : bs.length ≤ 3)
    (hpos : 1 ≤ digitsVal ds) (hab : digitsVal as ≤ digitsVal bs)
    (ptt ptt1 ptt2 : PttResult) :
    seasonEpisodes ptt ('S' :: (ds ++ 'E' :: (as ++ '-' :: 'E' :: bs))) =
      (some (digitsVal ds),
        (List.range (digitsVal bs + 1 - digitsVal as)).map (fun i => digitsVal as + i)) ∧
    seasonEpisodes ptt1 "S01EP(01-09)".data = seasonEpisodes ptt2 "S01E01-E09".data ∧
    seasonEpisodes ptt1 "S01EP(01-09)".data = (some 1, [1, 2, 3, 4, 5, 6, 7, 8, 9]) :=
  ⟨seasonEpisodes_range ds as bs hds has hbs hd1 hd2 ha1 ha2 hb1 hb2 hpos hab ptt,
   by rw [seasonEpisodes_surface1, seasonEpisodes_surface2],
   seasonEpisodes_surface1 ptt1⟩

/-- Witness for C5 at the concrete input `S01E01-E09` (digit lists
`01`, `01`, `09`) and an empty library result. -/
theorem spec_c5_episode_range_parsing_witness :
    seasonEpisodes ⟨none, none, none⟩
      ('S' :: (['0', '1'] ++ 'E' :: (['0', '1'] ++ '-' :: 'E' :: ['0', '9']))) =
      (some (digitsVal ['0', '1']),
        (List.range (digitsVal ['0', '9'] + 1 - digitsVal ['0', '1'])).map
          (fun i => digitsVal ['0', '1'] + i)) :=
  (spec_c5_episode_range_parsing ['0', '1'] ['0', '1'] ['0', '9']
    (by decide) (by decide) (by decide) (by decide) (by decide) (by decide)
    (by decide) (by decide) (by decide) (by decide) (by decide)
    ⟨none, none, none⟩ ⟨none, none, none⟩ ⟨none, none, none⟩).1

/-! ## Character arithmetic lemmas for C10 -/

lemma toNat_ofNat_valid (n : Nat) (h : Nat.isValidChar n) : (Char.ofNat n).toNat = n := by
  rw [Char.ofNat, dif_pos h]
  show (Char.ofNatAux n h).toNat = n
  unfold Char.ofNatAux Char.toNat
  simp [UInt32.toNat, BitVec.toNat_ofNatLt]

lemma char_le_iff_toNat (a b : Char) : a ≤ b ↔ a.toNat ≤ b.toNat := by
  rw [Char.le_def]
  exact Iff.rfl

lemma isDigit_iff_toNat (c : Char) : c.isDigit = true ↔ 48 ≤ c.toNat ∧ c.toNat ≤ 57 := by
  unfold Char.isDigit
  rw [Bool.and_eq_true, decide_eq_true_eq, decide_eq_true_eq]
  constructor
  · intro ⟨x, y⟩
    exact ⟨x, y⟩
  · intro ⟨x, y⟩
    exact ⟨x, y⟩

lemma isLowerHex_jsToLower {c : Char} (h : hexCls c = true) :
    isLowerHex (jsToLower c) = true := by
  have hA : ('A' : Char).toNat = 65 := rfl
  have hZ : ('Z' : Char).toNat = 90 := rfl
  have hla : ('a' : Char).toNat = 97 := rfl
  have hlf : ('f' : Char).toNat = 102 := rfl
  have hF : ('F' : Char).toNat = 70 := rfl
  unfold hexCls at h
  simp only [Bool.or_eq_true, Bool.and_eq_true, decide_eq_true_eq] at h
  unfold jsToLower isLowerHex
  rcases h with (hd | ⟨h1, h2⟩) | ⟨h1, h2⟩
  · have hv := (isDigit_iff_toNat c).mp hd
    rw [if_neg (by rw [char_le_iff_toNat, char_le_iff_toNat, hA, hZ]; omega)]
    simp [hd]
  · rw [char_le_iff_toNat, hla] at h1
    rw [char_le_iff_toNat, hlf] at h2
    rw [if_neg (by rw [char_le_iff_toNat, char_le_iff_toNat, hA, hZ]; omega)]
    simp only [Bool.or_eq_true, Bool.and_eq_true, decide_eq_true_eq]
    right
    rw [char_le_iff_toNat, char_le_iff_toNat, hla, hlf]
    omega
  · rw [char_le_iff_toNat, hA] at h1
    rw [char_le_iff_toNat, hF] at h2
    rw [if_pos (by rw [char_le_iff_toNat, char_le_iff_toNat, hA, hZ]; omega)]
    have hval : Nat.isValidChar (c.toNat + 32) := Or.inl (by omega)
    have ht := toNat_ofNat_valid (c.toNat + 32) hval
    simp only [Bool.or_eq_true, Bool.and_eq_true, decide_eq_true_eq]
    right
    rw [char_le_iff_toNat, char_le_iff_toNat, ht, hla, hlf]
    omega

lemma mtch_nogrp_caps :
    ∀ (p : RPat) (s : List Char) (caps : Caps) (r : List Char × Caps),
      NoGrp p → r ∈ mtch p s caps → r.2 = caps := by
  intro p
  induction p with
  | cls q =>
    intro s caps r _ hr
    cases s with
    | nil => simp [mtch] at hr
    | cons c rest =>
      simp only [mtch] at hr
      split at hr
      · simp at hr
        simp [hr]
      · simp at hr
  | seq a b iha ihb =>
    intro s caps r hN hr
    simp only [mtch, List.mem_flatMap] at hr
    obtain ⟨x, hx, hr⟩ := hr
    rw [ihb x.1 x.2 r hN.2 hr]
    exact iha s caps x hN.1 hx
  | alt a b iha ihb =>
    intro s caps r hN hr
    simp only [mtch, List.mem_append] at hr
    rcases hr with hr | hr
    exacts [iha s caps r hN.1 hr, ihb s caps r hN.2 hr]
  | opt a iha =>
    intro s caps r hN hr
    simp only [mtch, List.mem_append] at hr
    rcases hr with hr | hr
    · exact iha s caps r hN hr
    · simp at hr
      simp [hr]
  | rep q lo hi =>
    intro s caps r _ hr
    simp only [mtch] at hr
    split at hr
    · simp at hr
    · simp only [List.mem_map, List.mem_range] at hr
      obtain ⟨j, _, hj⟩ := hr
      simp [← hj]
  | grp i a iha =>
    intro _ _ _ hN _
    exact absurd hN (by simp [NoGrp])
  | nla a iha =>
    intro s caps r _ hr
    simp only [mtch] at hr
    split at hr
    · simp at hr
      simp [hr]
    · simp at hr

lemma take_all_of_le_countRun {p : Char → Bool} {k : Nat} {s : List Char}
    (hk : k ≤ countRun p s) : ∀ c ∈ s.take k, p c = true := by
  intro c hc
  have heq : s.take k = (s.takeWhile p).take k := by
    conv_lhs => rw [← List.takeWhile_append_dropWhile (p := p) (l := s)]
    exact List.take_append_of_le_length hk
  rw [heq] at hc
  exact List.mem_takeWhile_imp (List.take_subset _ _ hc)

lemma mtch_BTIH {s : List Char} {r : List Char × Caps}
    (hr : r ∈ mtch BTIH_REGEX s []) :
    ∃ hsh, r.2 = [(1, hsh)] ∧ hsh.length = 40 ∧ ∀ c ∈ hsh, hexCls c = true := by
  rw [show mtch BTIH_REGEX s [] =
      (mtch (litWord ['b', 't', 'i', 'h', ':']) s []).flatMap
        (fun r => mtch (.grp 1 (.rep hexCls 40 (some 40))) r.1 r.2) from rfl,
    List.mem_flatMap] at hr
  obtain ⟨x, hx, hr⟩ := hr
  have hcx : x.2 = [] :=
    mtch_nogrp_caps _ s [] x (by simp [litWord, seqList, NoGrp]) hx
  rw [show mtch (.grp 1 (.rep hexCls 40 (some 40))) x.1 x.2 =
      (mtch (.rep hexCls 40 (some 40)) x.1 x.2).map
        (fun r => (r.1, (1, x.1.take (x.1.length - r.1.length)) :: r.2)) from rfl,
    List.mem_map] at hr
  obtain ⟨y, hy, hry⟩ := hr
  rw [hcx] at hy
  simp only [mtch] at hy
  split at hy
  · simp at hy
  · rename_i hge
    simp only [not_lt] at hge
    simp only [List.mem_map, List.mem_range] at hy
    obtain ⟨j, hj, hjy⟩ := hy
    set m := min ((some 40).getD x.1.length) (countRun hexCls x.1) with hm
    have hm40 : m = 40 := by
      have : m ≤ 40 := by simp [hm]
      omega
    have hcr : 40 ≤ countRun hexCls x.1 := by
      have : m ≤ countRun hexCls x.1 := by simp [hm]
      omega
    have hj0 : j = 0 := by omega
    have hlen : 40 ≤ x.1.length :=
      le_trans hcr (List.Sublist.length_le (List.takeWhile_sublist _))
    subst hj0
    rw [hm40] at hjy
    simp only [Nat.sub_zero] at hjy
    have hy1 : y.1 = x.1.drop 40 := by rw [← hjy]
    have hy2 : y.2 = [] := by rw [← hjy]
    refine ⟨x.1.take 40, ?_, ?_, ?_⟩
    · rw [← hry, hy2, hy1]
      have : x.1.length - (x.1.length - 40) = 40 := by omega
      simp [List.length_drop, this]
    · rw [List.length_take]
      omega
    · exact take_all_of_le_countRun hcr

lemma jsSearch_mem {pat : RPat} {s : List Char} {caps : Caps}
    (h : jsSearch pat s = some caps) :
    ∃ s' r, r ∈ mtch pat s' [] ∧ r.2 = caps := by
  induction s with
  | nil =>
    simp only [jsSearch, jsSearchFrom] at h
    cases hm : (mtch pat [] []).head? with
    | none => rw [hm] at h; simp at h
    | some r =>
      rw [hm] at h
      simp at h
      exact ⟨[], r, List.mem_of_mem_head? (by rw [hm]; rfl), h⟩
  | cons c rest ih =>
    simp only [jsSearch, jsSearchFrom] at h ih
    cases hm : (mtch pat (c :: rest) []).head? with
    | some r =>
      rw [hm] at h
      simp at h
      exact ⟨c :: rest, r, List.mem_of_mem_head? (by rw [hm]; rfl), h⟩
    | none =>
      rw [hm] at h
      exact ih h

lemma jsSearch_BTIH_hash {s : List Char} {caps : Caps}
    (h : jsSearch BTIH_REGEX s = some caps) :
    ∃ hsh, capStr caps 1 = some hsh ∧ hsh.length = 40 ∧ ∀ c ∈ hsh, hexCls c = true := by
  obtain ⟨s', r, hr, hc⟩ := jsSearch_mem h
  obtain ⟨hsh, h2, h40, hhex⟩ := mtch_BTIH hr
  refine ⟨hsh, ?_, h40, hhex⟩
  rw [← hc, h2]
  simp [capStr]

/-! ## Claim C10 -/

/-- C10: for every magnet URI string, `parseTitle` returns null (`.ok
none`, without throwing) whenever the string lacks a `btih:` info hash of
40 hexadecimal characters or lacks a non-empty `&dn=` display-name
parameter; and every non-null result carries a 40-character, lower-cased
hexadecimal info hash. -/
theorem spec_c10_parse_null_guard (ptt : List Char → PttResult) (uri : List Char) :
    ((jsSearch BTIH_REGEX uri = none ∨ jsSearch DN_REGEX uri = none) →
      parseTitle ptt uri = .ok none) ∧
    (∀ r, parseTitle ptt uri = .ok (some r) →
      r.infoHash.length = 40 ∧ ∀ c ∈ r.infoHash, isLowerHex c = true) := by
  constructor
  · intro h
    rcases h with h | h
    · simp [parseTitle, h]
    · cases hB : jsSearch BTIH_REGEX uri with
      | none => simp [parseTitle, hB]
      | some hcaps => simp [parseTitle, hB, h]
  · intro r hr
    cases hB : jsSearch BTIH_REGEX uri with
    | none => simp [parseTitle, hB] at hr
    | some hcaps =>
      cases hD : jsSearch DN_REGEX uri with
      | none => simp [parseTitle, hB, hD] at hr
      | some dcaps =>
        cases hDec : decodeURIComponentJS ((capStr dcaps 1).getD []) with
        | none => simp [parseTitle, hB, hD, hDec] at hr
        | some dec =>
          obtain ⟨hsh, hcap, h40, hhex⟩ := jsSearch_BTIH_hash hB
          simp only [parseTitle, hB, hD, hDec] at hr
          split at hr
          · exact absurd hr (by simp)
          · simp only [Except.ok.injEq, Option.some.injEq] at hr
            subst hr
            rw [hcap]
            simp only [Option.getD_some, List.length_map, List.mem_map]
            refine ⟨h40, ?_⟩
            rintro c ⟨c', hc', rfl⟩
            exact isLowerHex_jsToLower (hhex c' hc')

/-- Witness for C10 at a URI with no `btih:` hash. -/
theorem spec_c10_parse_null_guard_witness :
    parseTitle (fun _ => ⟨none, none, none⟩) "magnet:?xt=urn:aaa&dn=Show".data = .ok none :=
  (spec_c10_parse_null_guard (fun _ => ⟨none, none, none⟩) "magnet:?xt=urn:aaa&dn=Show".data).1
    (Or.inl (by decide))

/-! ## Event-shape lemmas -/

lemma getTvDetails_call (env : Env) (id : String) :
    ∀ e ∈ (getTvDetails env id).2, isCallEv e = true := by
  intro e he
  unfold getTvDetails at he
  try dsimp only [] at he
  split at he
  · simp at he
  · cases hd : env.detailsResp id with
    | error u =>
      rw [hd] at he
      simp at he
      simp [he, isCallEv]
    | ok v =>
      rw [hd] at he
      by_cases hv : jsTruthyStr v = true
      · simp [hv] at he
        simp [he, isCallEv]
      · simp [hv] at he
        simp [he, isCallEv]

lemma searchTv_call (env : Env) (t : String) (y : Option String) :
    ∀ e ∈ (searchTv env t y).2, isCallEv e = true := by
  intro e he
  unfold searchTv at he
  try dsimp only [] at he
  split at he
  · simp at he
  · by_cases hy : jsTruthyStr y = true
    · rw [if_pos hy] at he
      cases h1 : env.searchResp t true with
      | error u =>
        rw [h1] at he
        cases h2 : env.searchResp t false with
        | error v =>
          rw [h2] at he
          simp at he
          rcases he with he | he <;> simp [he, isCallEv]
        | ok w =>
          rw [h2] at he
          cases w <;> simp at he <;> rcases he with he | he <;> simp [he, isCallEv]
      | ok v =>
        rw [h1] at he
        cases v with
        | some id =>
          simp at he
          simp [he, isCallEv]
        | none =>
          cases h2 : env.searchResp t false with
          | error v =>
            rw [h2] at he
            simp at he
            rcases he with he | he <;> simp [he, isCallEv]
          | ok w =>
            rw [h2] at he
            cases w <;> simp at he <;> rcases he with he | he <;> simp [he, isCallEv]
    · rw [if_neg hy] at he
      cases h2 : env.searchResp t false with
      | error v =>
        rw [h2] at he
        simp at he
        simp [he, isCallEv]
      | ok w =>
        rw [h2] at he
        cases w <;> simp at he <;> simp [he, isCallEv]

lemma searchOmdb_call (env : Env) (t : String) :
    ∀ e ∈ (searchOmdb env t).2, isCallEv e = true := by
  intro e he
  unfold searchOmdb at he
  try dsimp only [] at he
  split at he
  · simp at he
  · cases h1 : env.omdbResp t with
    | error u =>
      rw [h1] at he
      simp at he
      simp [he, isCallEv]
    | ok w =>
      rw [h1] at he
      cases w <;> simp at he <;> simp [he, isCallEv]

lemma findCachedTmdbId_call (env : Env) (b : String) (y : Option String) :
    ∀ e ∈ (findCachedTmdbId env b y).2, isCallEv e = true := by
  intro e he
  unfold findCachedTmdbId at he
  try dsimp only [] at he
  split at he
  · split at he
    · simp at he
      simp [he, isCallEv]
    · simp at he
      rcases he with he | he <;> simp [he, isCallEv]
  · simp at he
    simp [he, isCallEv]

lemma hintStage_call (env : Env) (b : String) (m : MetaResult) :
    ∀ e ∈ (hintStage env b m).2, isCallEv e = true := by
  intro e he
  unfold hintStage at he
  try dsimp only [] at he
  split at he
  · split at he
    all_goals
      simp only [List.mem_append, List.mem_cons, List.not_mem_nil, or_false] at he
    all_goals
      rcases he with he | he
      · simp [he, isCallEv]
      · exact getTvDetails_call env _ e he
  · simp at he
    simp [he, isCallEv]

lemma cacheStage_call (env : Env) (b : String) (y : Option String) (m : MetaResult) :
    ∀ e ∈ (cacheStage env b y m).2, isCallEv e = true := by
  intro e he
  unfold cacheStage at he
  try dsimp only [] at he
  split at he
  · split at he
    · split at he
      all_goals
        simp only [List.mem_append, List.not_mem_nil] at he
      all_goals
        rcases he with he | he
        · exact findCachedTmdbId_call env b y e he
        · exact getTvDetails_call env _ e he
    · exact findCachedTmdbId_call env b y e he
  · simp at he

lemma tmdbSearchStage_call (env : Env) (b : String) (y : Option String) (m : MetaResult) :
    ∀ e ∈ (tmdbSearchStage env b y m).2, isCallEv e = true := by
  intro e he
  unfold tmdbSearchStage at he
  try dsimp only [] at he
  split at he
  · split at he
    all_goals
      simp only [List.mem_append, List.not_mem_nil] at he
    all_goals
      rcases he with he | he
      · exact searchTv_call env b y e he
      · exact getTvDetails_call env _ e he
  · exact searchTv_call env b y e he

lemma omdbStage_call (env : Env) (b : String) (m : MetaResult) :
    ∀ e ∈ (omdbStage env b m).2, isCallEv e = true := by
  intro e he
  unfold omdbStage at he
  try dsimp only [] at he
  split at he
  · split at he
    · split at he
      · split at he
        · simp only [apply_ite Prod.snd] at he
          try dsimp only [] at he
          rw [ite_self] at he
          simp only [List.mem_append, List.not_mem_nil] at he
          rcases he with he | he
          · exact searchOmdb_call env b e he
          · exact getTvDetails_call env _ e he
        · simp only [List.mem_append, List.not_mem_nil] at he
          rcases he with he | he
          · exact searchOmdb_call env b e he
          · exact getTvDetails_call env _ e he
      · exact searchOmdb_call env b e he
    · exact searchOmdb_call env b e he
  · simp at he

lemma apiStage_call (env : Env) (b : String) (y : Option String) (m : MetaResult) :
    ∀ e ∈ (apiStage env b y m).2, isCallEv e = true := by
  intro e he
  unfold apiStage at he
  try dsimp only [] at he
  split at he
  · simp only [List.mem_append] at he
    rcases he with he | he
    · exact tmdbSearchStage_call env b y _ e he
    · exact omdbStage_call env b _ e he
  · simp at he

lemma resolveMeta_call (env : Env) (b : String) (y : Option String) :
    ∀ e ∈ (resolveMeta env b y).2, isCallEv e = true := by
  intro e he
  unfold resolveMeta at he
  try dsimp only [] at he
  simp only [List.mem_append] at he
  rcases he with (he | he) | he
  · exact hintStage_call env b _ e he
  · exact cacheStage_call env b y _ e he
  · exact apiStage_call env b y _ e he

/-! ## Claim C6 -/

/-- C6 counterexample: when the raw page fetch fails (`fetchThreadHtml`
returns null), `processThread` returns without performing any effect —
in particular `updateThreadTimestamp` is NOT called, contradicting the
claim that `lastVisitedAt` is still advanced. -/
theorem spec_c6_counterexample :
    Ev.tsUpdate ∉ processThread { envBase with html := none } "http://thread/1" := by
  decide

/-- C6 amended: on a fetch failure the thread is skipped and no effect
at all is performed; the timestamp is advanced only on the no-magnets
path and after successful processing. -/
theorem spec_c6_fetch_failure_no_effects (env : Env) (url : String)
    (h : env.html = none) : processThread env url = [] := by
  unfold processThread
  rw [h]

/-- Witness for the amended C6 theorem. -/
theorem spec_c6_fetch_failure_no_effects_witness :
    processThread { envBase with html := none } "http://thread/1" = [] :=
  spec_c6_fetch_failure_no_effects { envBase with html := none } "http://thread/1" rfl

/-! ## Claim C2 -/

/-- C2 counterexample: with the identity cache already holding a tmdb id
for `(myshow, 2023)`, `resolve` still performs one external provider
call — the `getTvDetails` fetch on the cached id — so the number of
provider calls is 1, not 0 as claimed (though both identifiers do come
back resolved). -/
theorem spec_c2_counterexample :
    ((resolveMeta envC2 "myshow" (some "2023")).2.filter isProviderCallEv).length = 1 ∧
    (resolveMeta envC2 "myshow" (some "2023")).1.tmdbId = some "77" ∧
    (resolveMeta envC2 "myshow" (some "2023")).1.imdbId = some "tt0042" := by
  decide

/-- C2 amended: a second `resolve(key, year)` with a cached identity and
no manual hint performs zero provider *search* calls (no TMDb search, no
OMDb search) but exactly one provider *detail* fetch, on the cached id;
the cached identity is returned. -/
lemma findCachedTmdbId_reads (env : Env) (b : String) (y : Option String) :
    ∀ e ∈ (findCachedTmdbId env b y).2, ∃ k, e = Ev.cacheRead k := by
  intro e he
  unfold findCachedTmdbId at he
  try dsimp only [] at he
  split at he
  · split at he
    · simp at he
      exact ⟨_, he⟩
    · simp at he
      rcases he with he | he <;> exact ⟨_, he⟩
  · simp at he
    exact ⟨_, he⟩

theorem spec_c2_cached_resolve_no_search (env : Env) (base : String)
    (year : Option String) (cid imdb : String)
    (hhint : env.hints base = none)
    (hcid : (findCachedTmdbId env base year).1 = some cid) (hc : cid ≠ "")
    (hkey : env.tmdbKey = true)
    (hdet : env.detailsResp cid = .ok (some imdb)) (him : imdb ≠ "") :
    (resolveMeta env base year).2.filter isSearchEv = [] ∧
    (resolveMeta env base year).2.filter isDetailsEv = [Ev.tvDetailsFetch cid] ∧
    (resolveMeta env base year).1.tmdbId = some cid ∧
    (resolveMeta env base year).1.imdbId = some imdb := by
  have hm0 : hintStage env base
      { tmdbId := none, imdbId := none, poster := none, name := base, year := year } =
      ({ tmdbId := none, imdbId := none, poster := none, name := base, year := year },
        [Ev.hintLookup base]) := by
    unfold hintStage
    rw [hhint]
    simp [jsTruthyStr]
  have hdet2 : getTvDetails env cid = (some ⟨cid, imdb⟩, [Ev.tvDetailsFetch cid]) := by
    unfold getTvDetails
    rw [hkey, hdet]
    simp [jsTruthyStr, him]
  have hfc : findCachedTmdbId env base year =
      (some cid, (findCachedTmdbId env base year).2) := by
    conv_lhs => rw [← Prod.mk.eta (p := findCachedTmdbId env base year)]
    rw [hcid]
  have hm2 : cacheStage env base year
      { tmdbId := none, imdbId := none, poster := none, name := base, year := year } =
      ({ tmdbId := some cid, imdbId := some imdb, poster := none, name := base, year := year },
        (findCachedTmdbId env base year).2 ++ [Ev.tvDetailsFetch cid]) := by
    unfold cacheStage
    rw [if_pos (by simp [jsTruthyStr])]
    rw [hfc]
    try dsimp only []
    rw [if_pos (by simp [jsTruthyStr, hc])]
    simp only [Option.getD_some]
    rw [hdet2]
  have hm3 : apiStage env base year
      { tmdbId := some cid, imdbId := some imdb, poster := none, name := base, year := year } =
      ({ tmdbId := some cid, imdbId := some imdb, poster := none, name := base, year := year },
        []) := by
    unfold apiStage
    rw [if_neg (by simp [jsTruthyStr, hc])]
  have htr : resolveMeta env base year =
      ({ tmdbId := some cid, imdbId := some imdb, poster := none, name := base, year := year },
        [Ev.hintLookup base] ++ ((findCachedTmdbId env base year).2 ++ [Ev.tvDetailsFetch cid]) ++ []) := by
    unfold resolveMeta
    try dsimp only []
    rw [hm0]
    try dsimp only []
    rw [hm2]
    try dsimp only []
    rw [hm3]
  rw [htr]
  have hs1 : (findCachedTmdbId env base year).2.filter isSearchEv = [] := by
    rw [List.filter_eq_nil_iff]
    intro e he
    obtain ⟨k, rfl⟩ := findCachedTmdbId_reads env base year e he
    simp [isSearchEv]
  have hs2 : (findCachedTmdbId env base year).2.filter isDetailsEv = [] := by
    rw [List.filter_eq_nil_iff]
    intro e he
    obtain ⟨k, rfl⟩ := findCachedTmdbId_reads env base year e he
    simp [isDetailsEv]
  refine ⟨?_, ?_, rfl, rfl⟩
  · simp only [List.append_nil, List.filter_append, List.filter_cons, List.filter_nil, hs1]
    rfl
  · simp only [List.append_nil, List.filter_append, List.filter_cons, List.filter_nil, hs2]
    rfl

/-- Witness for the amended C2 theorem. -/
theorem spec_c2_cached_resolve_no_search_witness :
    (resolveMeta envC2 "myshow" (some "2023")).2.filter isSearchEv = [] :=
  (spec_c2_cached_resolve_no_search envC2 "myshow" (some "2023") "77" "tt0042"
    rfl (by decide) (by decide) rfl rfl (by decide)).1

/-! ## Finer event-shape lemmas -/

lemma getTvDetails_events (env : Env) (id : String) :
    (getTvDetails env id).2 = [] ∨ (getTvDetails env id).2 = [Ev.tvDetailsFetch id] := by
  unfold getTvDetails
  split
  · exact Or.inl rfl
  · cases env.detailsResp id with
    | error u => exact Or.inr rfl
    | ok v =>
      refine Or.inr ?_
      rw [apply_ite Prod.snd]
      try dsimp only []
      rw [ite_self]

lemma hintStage_mem (env : Env) (b : String) (m : MetaResult) :
    ∀ e ∈ (hintStage env b m).2, e = Ev.hintLookup b ∨ ∃ id, e = Ev.tvDetailsFetch id := by
  intro e he
  unfold hintStage at he
  try dsimp only [] at he
  split at he
  · have hd := getTvDetails_events env (hintTargetId ((env.hints b).getD ""))
    split at he
    all_goals
      rcases hd with hd | hd <;>
        rw [hd] at he <;> simp at he <;>
          first
          | (exact Or.inl he)
          | (rcases he with he | he
             · exact Or.inl he
             · exact Or.inr ⟨_, he⟩)
  · simp at he
    exact Or.inl he

lemma cacheStage_mem (env : Env) (b : String) (y : Option String) (m : MetaResult) :
    ∀ e ∈ (cacheStage env b y m).2,
      (∃ k, e = Ev.cacheRead k) ∨ ∃ id, e = Ev.tvDetailsFetch id := by
  intro e he
  unfold cacheStage at he
  try dsimp only [] at he
  split at he
  · split at he
    · have hd := getTvDetails_events env ((findCachedTmdbId env b y).1.getD "")
      split at he
      all_goals
        rcases hd with hd | hd <;> rw [hd] at he <;>
          simp only [List.append_nil, List.mem_append, List.mem_cons,
            List.not_mem_nil, or_false] at he
      · exact Or.inl (findCachedTmdbId_reads env b y e he)
      · rcases he with he | he
        · exact Or.inl (findCachedTmdbId_reads env b y e he)
        · exact Or.inr ⟨_, he⟩
      · exact Or.inl (findCachedTmdbId_reads env b y e he)
      · rcases he with he | he
        · exact Or.inl (findCachedTmdbId_reads env b y e he)
        · exact Or.inr ⟨_, he⟩
    · exact Or.inl (findCachedTmdbId_reads env b y e he)
  · simp at he

lemma searchTv_mem (env : Env) (t : String) (y : Option String) :
    ∀ e ∈ (searchTv env t y).2, ∃ w, e = Ev.tvSearch w := by
  intro e he
  unfold searchTv at he
  split at he
  · simp at he
  · split at he
    · cases h1 : env.searchResp t true with
      | error u =>
        rw [h1] at he
        cases h2 : env.searchResp t false with
        | error v =>
          rw [h2] at he
          simp at he
          rcases he with he | he <;> exact ⟨_, he⟩
        | ok w =>
          rw [h2] at he
          cases w <;> simp at he <;> rcases he with he | he <;> exact ⟨_, he⟩
      | ok v =>
        rw [h1] at he
        cases v with
        | some id =>
          simp at he
          exact ⟨_, he⟩
        | none =>
          cases h2 : env.searchResp t false with
          | error v =>
            rw [h2] at he
            simp at he
            rcases he with he | he <;> exact ⟨_, he⟩
          | ok w =>
            rw [h2] at he
            cases w <;> simp at he <;> rcases he with he | he <;> exact ⟨_, he⟩
    · cases h2 : env.searchResp t false with
      | error v =>
        rw [h2] at he
        simp at he
        exact ⟨_, he⟩
      | ok w =>
        rw [h2] at he
        cases w <;> simp at he <;> exact ⟨_, he⟩

lemma searchTv_false_mem (env : Env) (t : String) (y : Option String)
    (he : Ev.tvSearch false ∈ (searchTv env t y).2) :
    jsTruthyStr y = false ∨ ∀ id, env.searchResp t true ≠ .ok (some id) := by
  unfold searchTv at he
  split at he
  · simp at he
  · split at he
    · rename_i hy
      cases h1 : env.searchResp t true with
      | error u =>
        refine Or.inr ?_
        intro id
        simp
      | ok v =>
        rw [h1] at he
        cases v with
        | some id => simp at he
        | none =>
          refine Or.inr ?_
          intro id
          simp
    · rename_i hy
      exact Or.inl (by simpa using hy)

lemma tmdbSearchStage_mem (env : Env) (b : String) (y : Option String) (m : MetaResult) :
    ∀ e ∈ (tmdbSearchStage env b y m).2,
      (∃ w, e = Ev.tvSearch w) ∨ ∃ id, e = Ev.tvDetailsFetch id := by
  intro e he
  unfold tmdbSearchStage at he
  try dsimp only [] at he
  split at he
  · have hd := getTvDetails_events env ((searchTv env b y).1.getD "")
    split at he
    all_goals
      rcases hd with hd | hd <;> rw [hd] at he <;>
        simp only [List.append_nil, List.mem_append, List.mem_cons,
          List.not_mem_nil, or_false] at he
    · exact Or.inl (searchTv_mem env b y e he)
    · rcases he with he | he
      · exact Or.inl (searchTv_mem env b y e he)
      · exact Or.inr ⟨_, he⟩
    · exact Or.inl (searchTv_mem env b y e he)
    · rcases he with he | he
      · exact Or.inl (searchTv_mem env b y e he)
      · exact Or.inr ⟨_, he⟩
  · exact Or.inl (searchTv_mem env b y e he)

lemma searchOmdb_mem (env : Env) (t : String) :
    ∀ e ∈ (searchOmdb env t).2, e = Ev.omdbFetch := by
  intro e he
  unfold searchOmdb at he
  split at he
  · simp at he
  · cases h1 : env.omdbResp t with
    | error u =>
      rw [h1] at he
      simp at he
      exact he
    | ok w =>
      rw [h1] at he
      cases w <;> simp at he <;> exact he

lemma mem_getTvDetails_fetch (env : Env) (id : String) (e : Ev)
    (he : e ∈ (getTvDetails env id).2) : e = Ev.tvDetailsFetch id := by
  rcases getTvDetails_events env id with hd | hd <;> rw [hd] at he <;> simp at he
  exact he

lemma omdbStage_mem (env : Env) (b : String) (m : MetaResult) :
    ∀ e ∈ (omdbStage env b m).2,
      e = Ev.omdbFetch ∨ ∃ id, e = Ev.tvDetailsFetch id := by
  intro e he
  unfold omdbStage at he
  try dsimp only [] at he
  split at he
  · split at he
    · split at he
      · split at he
        · simp only [apply_ite Prod.snd] at he
          try dsimp only [] at he
          rw [ite_self] at he
          simp only [List.mem_append] at he
          rcases he with he | he
          · exact Or.inl (searchOmdb_mem env b e he)
          · exact Or.inr ⟨_, mem_getTvDetails_fetch env _ e he⟩
        · simp only [List.mem_append] at he
          rcases he with he | he
          · exact Or.inl (searchOmdb_mem env b e he)
          · exact Or.inr ⟨_, mem_getTvDetails_fetch env _ e he⟩
      · exact Or.inl (searchOmdb_mem env b e he)
    · exact Or.inl (searchOmdb_mem env b e he)
  · simp at he

lemma omdbStage_mem_guard (env : Env) (b : String) (m : MetaResult) (e : Ev)
    (he : e ∈ (omdbStage env b m).2) : jsTruthyStr m.imdbId = false := by
  unfold omdbStage at he
  split at he
  · rename_i hg
    simpa using hg
  · simp at he

/-! ## Claim C8 -/

lemma resolveMeta_eq (env : Env) (b : String) (y : Option String) :
    resolveMeta env b y =
      ((apiStage env b y (cacheStage env b y (hintStage env b
          { tmdbId := none, imdbId := none, poster := none, name := b, year := y }).1).1).1,
        (hintStage env b
          { tmdbId := none, imdbId := none, poster := none, name := b, year := y }).2 ++
        (cacheStage env b y (hintStage env b
          { tmdbId := none, imdbId := none, poster := none, name := b, year := y }).1).2 ++
        (apiStage env b y (cacheStage env b y (hintStage env b
          { tmdbId := none, imdbId := none, poster := none, name := b, year := y }).1).1).2) := rfl

lemma hintStage_cons (env : Env) (b : String) (m : MetaResult) :
    ∃ t, (hintStage env b m).2 = Ev.hintLookup b :: t := by
  unfold hintStage
  try dsimp only []
  split
  · split <;> exact ⟨_, rfl⟩
  · exact ⟨[], rfl⟩

lemma cacheStage_skip (env : Env) (b : String) (y : Option String) (m : MetaResult)
    (h : jsTruthyStr m.tmdbId = true) : cacheStage env b y m = (m, []) := by
  unfold cacheStage
  rw [if_neg (by simp [h])]

lemma apiStage_skip (env : Env) (b : String) (y : Option String) (m : MetaResult)
    (h : jsTruthyStr m.tmdbId = true) : apiStage env b y m = (m, []) := by
  unfold apiStage
  rw [if_neg (by simp [h])]

lemma tmdbSearchStage_tvSearch_false (env : Env) (b : String) (y : Option String)
    (m : MetaResult) (he : Ev.tvSearch false ∈ (tmdbSearchStage env b y m).2) :
    Ev.tvSearch false ∈ (searchTv env b y).2 := by
  unfold tmdbSearchStage at he
  try dsimp only [] at he
  split at he
  · split at he
    all_goals
      simp only [List.mem_append] at he
    all_goals
      rcases he with he | he
      · exact he
      · exact absurd (mem_getTvDetails_fetch env _ _ he) (by simp)
  · exact he

lemma apiStage_tvSearch_false (env : Env) (b : String) (y : Option String)
    (m : MetaResult) (he : Ev.tvSearch false ∈ (apiStage env b y m).2) :
    Ev.tvSearch false ∈ (searchTv env b y).2 := by
  unfold apiStage at he
  try dsimp only [] at he
  split at he
  · simp only [List.mem_append] at he
    rcases he with he | he
    · exact tmdbSearchStage_tvSearch_false env b y m he
    · rcases omdbStage_mem env b _ _ he with h | ⟨id, h⟩ <;> simp at h
  · simp at he

/-- C8 counterexample: a resolution that succeeds through the provider
waterfall performs no write into the `show_map` identity cache — no code
in the pipeline ever writes it — contradicting the claim that the first
successful stage "writes that identity into the identity cache". -/
theorem spec_c8_counterexample :
    jsTruthyStr (resolveMeta envC8 "myshow" (some "2023")).1.tmdbId = true ∧
    jsTruthyStr (resolveMeta envC8 "myshow" (some "2023")).1.imdbId = true ∧
    (resolveMeta envC8 "myshow" (some "2023")).2.filter isCacheWriteEv = [] := by
  decide

/-- C8 amended: the waterfall attempts the stages in the fixed order
(manual hint, identity cache, primary provider with year, primary
provider without year, secondary provider); the hint is always attempted
first, a usable identity from the hint stage suppresses all later
stages, a usable identity from the cache stage suppresses both provider
stages, the without-year search runs only if the with-year search
produced no candidate, and the secondary provider runs only if no IMDb
id is known after the primary stages.  However, the resolved identity is
NOT written back into the identity cache: the trace never contains a
cache write. -/
theorem spec_c8_waterfall_order (env : Env) (b : String) (y : Option String) :
    (resolveMeta env b y).2.head? = some (Ev.hintLookup b) ∧
    (jsTruthyStr (hintStage env b
        { tmdbId := none, imdbId := none, poster := none, name := b, year := y }).1.tmdbId = true →
      resolveMeta env b y = hintStage env b
        { tmdbId := none, imdbId := none, poster := none, name := b, year := y }) ∧
    (jsTruthyStr (cacheStage env b y (hintStage env b
        { tmdbId := none, imdbId := none, poster := none, name := b, year := y }).1).1.tmdbId = true →
      (resolveMeta env b y).2 =
        (hintStage env b
          { tmdbId := none, imdbId := none, poster := none, name := b, year := y }).2 ++
        (cacheStage env b y (hintStage env b
          { tmdbId := none, imdbId := none, poster := none, name := b, year := y }).1).2) ∧
    (Ev.tvSearch false ∈ (resolveMeta env b y).2 →
      jsTruthyStr y = false ∨ ∀ id, env.searchResp b true ≠ .ok (some id)) ∧
    (Ev.omdbFetch ∈ (resolveMeta env b y).2 →
      jsTruthyStr (tmdbSearchStage env b y (cacheStage env b y (hintStage env b
        { tmdbId := none, imdbId := none, poster := none, name := b, year := y }).1).1).1.imdbId = false) ∧
    (resolveMeta env b y).2.filter isCacheWriteEv = [] := by
  refine ⟨?_, ?_, ?_, ?_, ?_, ?_⟩
  · rw [resolveMeta_eq]
    obtain ⟨t, ht⟩ := hintStage_cons env b
      { tmdbId := none, imdbId := none, poster := none, name := b, year := y }
    rw [ht]
    rfl
  · intro h
    rw [resolveMeta_eq, cacheStage_skip env b y _ h, apiStage_skip env b y _ h]
    simp
  · intro h
    rw [resolveMeta_eq]
    rw [apiStage_skip env b y _ h]
    simp
  · intro h
    rw [resolveMeta_eq] at h
    simp only [List.mem_append] at h
    rcases h with (h | h) | h
    · rcases hintStage_mem env b _ _ h with h | ⟨id, h⟩ <;> simp at h
    · rcases cacheStage_mem env b y _ _ h with ⟨k, h⟩ | ⟨id, h⟩ <;> simp at h
    · exact searchTv_false_mem env b y (apiStage_tvSearch_false env b y _ h)
  · intro h
    rw [resolveMeta_eq] at h
    simp only [List.mem_append] at h
    rcases h with (h | h) | h
    · rcases hintStage_mem env b _ _ h with h | ⟨id, h⟩ <;> simp at h
    · rcases cacheStage_mem env b y _ _ h with ⟨k, h⟩ | ⟨id, h⟩ <;> simp at h
    · unfold apiStage at h
      try dsimp only [] at h
      split at h
      · simp only [List.mem_append] at h
        rcases h with h | h
        · rcases tmdbSearchStage_mem env b y _ _ h with ⟨w, h⟩ | ⟨id, h⟩ <;> simp at h
        · exact omdbStage_mem_guard env b _ _ h
      · simp at h
  · rw [List.filter_eq_nil_iff]
    intro e he
    have h := resolveMeta_call env b y e he
    cases e <;> simp_all [isCallEv, isCacheWriteEv]

/-- Witness for the amended C8 theorem (it is hypothesis-free, but the
order conjuncts are implications; this instantiates the without-year
conjunct at a concrete environment). -/
theorem spec_c8_waterfall_order_witness :
    (resolveMeta envC8 "myshow" (some "2023")).2.head? = some (Ev.hintLookup "myshow") :=
  (spec_c8_waterfall_order envC8 "myshow" (some "2023")).1

/-! ## Claim C4 -/

lemma flatMap_singleton_eq_map {α β : Type} (l : List α) (g : α → β) :
    l.flatMap (fun m => [g m]) = l.map g := by
  induction l with
  | nil => rfl
  | cons x t ih => simp [List.flatMap_cons, ih]

lemma catchBlock_eq (env : Env) (td : ThreadData) (url : String) :
    catchBlock env td url =
      td.magnets.map (fun m => Ev.orphanAppend
        { magnet := m, title := td.title, source := url, loggedAt := env.now,
          reason := none, attempts := none }) := by
  unfold catchBlock
  split
  · unfold logUnmatchedMagnet
    exact flatMap_singleton_eq_map _ _
  · rename_i hlen
    simp only [decide_eq_true_eq, not_lt] at hlen
    have h0 : td.magnets = [] := List.length_eq_zero.mp (by omega)
    rw [h0]
    rfl

lemma catchBlock_not_persist (env : Env) (td : ThreadData) (url : String) :
    ∀ e ∈ catchBlock env td url, isPersistEv e = false := by
  intro e he
  rw [catchBlock_eq] at he
  simp only [List.mem_map] at he
  obtain ⟨m, _, rfl⟩ := he
  rfl

lemma isCallEv_not_persist {e : Ev} (h : isCallEv e = true) : isPersistEv e = false := by
  cases e <;> simp_all [isCallEv, isPersistEv]

/-- C4 confirmed: any persistence effect (show record, catalog entry,
stream record) in a `processThread` run implies that the resolution
waterfall produced an identity with both the primary (tmdb) and the
secondary (imdb) identifier truthy — the two-ID invariant guard at
threadProcessor lines 299-312. -/
theorem spec_c4_two_id_invariant (env : Env) (url : String) (e : Ev)
    (he : e ∈ processThread env url) (hp : isPersistEv e = true) :
    ∃ html td, env.html = some html ∧ env.parsePage html = some td ∧
      jsTruthyStr (resolveMeta env (env.normalize td.title)
        (env.yearMatch td.title)).1.tmdbId = true ∧
      jsTruthyStr (resolveMeta env (env.normalize td.title)
        (env.yearMatch td.title)).1.imdbId = true := by
  unfold processThread at he
  cases hh : env.html with
  | none =>
    rw [hh] at he
    simp at he
  | some html =>
    rw [hh] at he
    try dsimp only [] at he
    cases hpg : env.parsePage html with
    | none =>
      rw [hpg] at he
      simp [updateThreadTimestamp] at he
      rw [he] at hp
      simp [isPersistEv] at hp
    | some td =>
      rw [hpg] at he
      try dsimp only [] at he
      split at he
      · simp [updateThreadTimestamp] at he
        rw [he] at hp
        simp [isPersistEv] at hp
      · split at he
        · exact absurd hp (by simp [catchBlock_not_persist env td url e he])
        · split at he
          · rename_i hguard
            simp only [Bool.and_eq_true] at hguard
            exact ⟨html, td, rfl, hpg, hguard.2, hguard.1⟩
          · simp only [List.mem_append] at he
            rcases he with he | he
            · exact absurd hp (by simp [isCallEv_not_persist (resolveMeta_call env _ _ e he)])
            · exact absurd hp (by simp [catchBlock_not_persist env td url e he])

/-- Witness for C4 at a fully successful concrete run: the show-persist
event occurs and the theorem recovers both identifiers. -/
theorem spec_c4_two_id_invariant_witness :
    ∃ html td, envC4.html = some html ∧ envC4.parsePage html = some td ∧
      jsTruthyStr (resolveMeta envC4 (envC4.normalize td.title)
        (envC4.yearMatch td.title)).1.tmdbId = true ∧
      jsTruthyStr (resolveMeta envC4 (envC4.normalize td.title)
        (envC4.yearMatch td.title)).1.imdbId = true :=
  spec_c4_two_id_invariant envC4 "http://t" (Ev.showPersist "77" "tt0077")
    (by decide) (by decide)

/-! ## Claim C7 -/

lemma isCallEv_orphanOf_none {e : Ev} (h : isCallEv e = true) : orphanOf e = none := by
  cases e <;> simp_all [isCallEv, orphanOf]

/-- C7 counterexample: an unresolvable two-magnet thread produces two
orphan records, but the records carry neither a `reason` nor an
`attempts` field — `logUnmatchedMagnet` takes only three parameters and
stores `{ magnet, title, source, loggedAt }` — contradicting
`reason="NO_METADATA_MATCH"` and `attempts=1`. -/
theorem spec_c7_counterexample :
    ((processThread envC7 "http://t").filterMap orphanOf).length = 2 ∧
    ∀ r ∈ (processThread envC7 "http://t").filterMap orphanOf,
      r.reason = none ∧ r.attempts = none := by
  decide

/-- C7 amended: a thread whose resolution waterfall fails produces
exactly one orphan record per magnet; each record carries the magnet,
the thread title, the source url and the log time — and nothing else: no
reason and no attempts field are stored. -/
theorem spec_c7_orphan_per_magnet (env : Env) (url : String) (html : String)
    (td : ThreadData)
    (h1 : env.html = some html) (h2 : env.parsePage html = some td)
    (h3 : td.title.isEmpty = false) (h4 : td.magnets.isEmpty = false)
    (h5 : (env.normalize td.title = "") = False)
    (h6 : (jsTruthyStr (resolveMeta env (env.normalize td.title)
            (env.yearMatch td.title)).1.imdbId &&
          jsTruthyStr (resolveMeta env (env.normalize td.title)
            (env.yearMatch td.title)).1.tmdbId) = false) :
    (processThread env url).filterMap orphanOf =
      td.magnets.map (fun m =>
        { magnet := m, title := td.title, source := url, loggedAt := env.now,
          reason := none, attempts := none }) := by
  unfold processThread
  rw [h1]
  try dsimp only []
  rw [h2]
  try dsimp only []
  rw [if_neg (by simp [h3, h4])]
  rw [if_neg (by simp [h5])]
  rw [if_neg (by simp [h6])]
  rw [List.filterMap_append]
  have hres : ((resolveMeta env (env.normalize td.title)
      (env.yearMatch td.title)).2).filterMap orphanOf = [] := by
    rw [List.filterMap_eq_nil_iff]
    intro e he
    exact isCallEv_orphanOf_none (resolveMeta_call env _ _ e he)
  rw [hres, catchBlock_eq, List.filterMap_map]
  simp only [List.nil_append]
  rw [List.filterMap_eq_map_iff_forall_eq_some]
  intro m _
  rfl

/-- Witness for the amended C7 theorem. -/
theorem spec_c7_orphan_per_magnet_witness :
    (processThread envC7 "http://t").filterMap orphanOf =
      ["magnet:one".data, "magnet:two".data].map (fun m =>
        { magnet := m, title := "Show 2023".data, source := "http://t",
          loggedAt := "t0", reason := none, attempts := none }) :=
  spec_c7_orphan_per_magnet envC7 "http://t" "page"
    { title := "Show 2023".data,
      magnets := ["magnet:one".data, "magnet:two".data] }
    rfl rfl (by decide) (by decide) (by decide) (by decide)

/-! ## Claim C1 -/

lemma patLoop_all_none (p : PttResult) (title : List Char)
    (pats : List (RPat × PatType)) (s : Option Nat) (e : List Nat)
    (h : ∀ q ∈ pats, jsSearch q.1 title = none) :
    patLoop p title pats s e = (s, e) := by
  induction pats generalizing s e with
  | nil => rfl
  | cons q rest ih =>
    obtain ⟨pat, ty⟩ := q
    unfold patLoop
    rw [h (pat, ty) (by simp)]
    exact ih s e (fun q hq => h q (by simp [hq]))

/-- C1 counterexample: a magnet whose display name contains no
season/episode information at all (and for which the library finds
nothing) does NOT yield NO_MATCH: `parseTitle` returns a full stream
record with a null season and an empty episode list. -/
theorem spec_c1_counterexample :
    parseTitle (fun _ => ⟨none, none, none⟩)
      "magnet:?xt=urn:btih:0123456789abcdef0123456789abcdef01234567&dn=Just+A+Movie".data =
    .ok (some
      { infoHash := "0123456789abcdef0123456789abcdef01234567".data,
        name := "Just A Movie".data, season := none, episodes := [],
        resolution := "N/A" }) := by
  rfl

/-- C1 amended: when no pattern rule matches and the library fallback
has no season and no episode, the parser returns a stream record with a
null season and an empty episode list (not NO_MATCH); the caller then
hands the record to `addStream` (it never logs such a descriptor as an
orphan, which happens only on a null parse), and `addStream` refuses to
persist any record with a falsy season and no episodes — so no such
descriptor is ever persisted, with or without a defaulted season of 1. -/
theorem spec_c1_no_info_not_persisted (p : PttResult) (title : List Char)
    (tmdbId : String)
    (h1 : ∀ q ∈ PARSING_PATTERNS, jsSearch q.1 title = none)
    (h2 : jsTruthyNat p.season = false)
    (h3 : jsTruthyNat p.episode = false) :
    seasonEpisodes p title = (none, []) ∧
    (∀ st : ParsedTitle, jsTruthyNat st.season = false → st.episodes = [] →
      addStream tmdbId st = []) ∧
    (∀ (env : Env) (tid : String) (t : List Char) (u : String) (m : List Char)
      (pr : ParsedTitle), parseTitle env.ptt m = .ok (some pr) →
      magnetLoop env tid t u [m] = (addStream tid pr, false)) := by
  refine ⟨?_, ?_, ?_⟩
  · unfold seasonEpisodes
    rw [patLoop_all_none p title PARSING_PATTERNS none [] h1]
    try dsimp only []
    rw [if_pos (by simp [jsTruthyNat])]
    cases hep : p.episode with
    | none => simp [h2]
    | some e =>
      have he0 : e = 0 := by
        rw [hep] at h3
        simpa [jsTruthyNat] using h3
      simp [h2, he0]
  · intro st hs he
    unfold addStream
    rw [if_pos (by simp [hs, he])]
  · intro env tid t u m pr hm
    unfold magnetLoop
    rw [hm]
    try dsimp only []
    simp [magnetLoop]

/-- Witness for the amended C1 theorem at the display name
`Just A Movie`. -/
theorem spec_c1_no_info_not_persisted_witness :
    seasonEpisodes ⟨none, none, none⟩ "Just A Movie".data = (none, []) :=
  (spec_c1_no_info_not_persisted ⟨none, none, none⟩ "Just A Movie".data "77"
    (by decide) (by decide) (by decide)).1

/-- **C3.** The claim — every submitted task is dispatched exactly once
and the `drained` notification fires exactly once, when both the
active-task count and the queue reach zero, i.e. after all tasks
complete — fails in both pool revisions.  On a one-slot pool with two
submitted tasks, worker 0's two events each invoke `onDone` (part_009:
`message` and `exit`; part_010: `error` and `exit`).  The first call
frees the slot and dispatches task 1 into it; the second call's stale
guard sees the reassigned slot as occupied, frees it again and
decrements `activeTasks` for a task that is still running, so the pool
emits `drained` while task 1's worker has delivered nothing.  Dispatch
itself is exact here (each task dispatched once to a fresh worker); the
divergence is the premature `drained`. -/
theorem spec_c3_drained_before_completion :
    (c3Final9.isDrained = true ∧ c3Final9.drainedCount = 1 ∧
      c3Final9.dispatched = [(0, 0), (1, 1)] ∧
      (⟨1, 0, [WEv.msg, WEv.exit]⟩ : WorkerRec) ∈ c3Final9.running) ∧
    (c3Final10.isDrained = true ∧ c3Final10.drainedCount = 1 ∧
      c3Final10.dispatched = [(0, 0), (1, 1)] ∧
      (⟨1, 0, [WEv.msg, WEv.exit]⟩ : WorkerRec) ∈ c3Final10.running) := by
  decide
